import Mathlib

/-!
Verification of the Syntegra analytical pipeline against its specification.

The Python sources are shallowly embedded: machine floats become exact
rationals (ℚ), Python dictionaries become association lists with
overwrite-on-insert semantics, SQL tables become lists of rows, and the
database session becomes explicit state passing.  Each section below embeds
one component (`sentiment.py`, `trend_engine.py`, `insight_generator.py`,
`anomaly_detection.py`, `kpi_engine.py`) and proves or refutes the frozen
claims about it.
-/

namespace Syntegra

/-! ## Sentiment analyzer (`app/data_insights/text_analysis/sentiment.py`) -/

namespace Sentiment

/-- `POSITIVE_WORDS` from `sentiment.py` (a Python set; list membership is
used the same way the set is). -/
def POSITIVE_WORDS : List String :=
  ["excelente", "bueno", "genial", "fantástico", "increíble", "perfecto",
   "excellent", "good", "great", "fantastic", "amazing", "perfect",
   "mejor", "positivo", "éxito", "ganar", "beneficio", "ventaja",
   "better", "positive", "success", "win", "benefit", "advantage"]

/-- `NEGATIVE_WORDS` from `sentiment.py`. -/
def NEGATIVE_WORDS : List String :=
  ["malo", "terrible", "horrible", "pésimo", "problema", "error",
   "bad", "terrible", "horrible", "awful", "problem", "error",
   "peor", "negativo", "fracaso", "perder", "riesgo", "desventaja",
   "worse", "negative", "failure", "lose", "risk", "disadvantage"]

/-- Lower-casing as done by Python `str.lower()`, restricted to the ASCII
letters plus the accented letters appearing in the lexicons. -/
def lowerChar (c : Char) : Char :=
  if c = 'Á' then 'á' else if c = 'É' then 'é' else if c = 'Í' then 'í'
  else if c = 'Ó' then 'ó' else if c = 'Ú' then 'ú' else if c = 'Ñ' then 'ñ'
  else if c = 'Ü' then 'ü' else c.toLower

/-- Word characters for the regex `\w+` (ASCII alphanumerics, underscore and
the accented letters used by the lexicons). -/
def isWordChar (c : Char) : Bool :=
  c.isAlphanum || c = '_' ||
    ("áéíóúñüÁÉÍÓÚÑÜ".toList).contains c

/-- Split a character list into the maximal runs of word characters,
mirroring `re.findall(r'\w+', text)`. -/
def splitWords (s : List Char) : List (List Char) :=
  let p : List Char × List (List Char) :=
    s.foldr
      (fun c acc =>
        if isWordChar c then (c :: acc.1, acc.2)
        else ([], if acc.1.isEmpty then acc.2 else acc.1 :: acc.2))
      ([], [])
  if p.1.isEmpty then p.2 else p.1 :: p.2

/-- `re.findall(r'\w+', text.lower())`. -/
def tokenize (t : String) : List String :=
  (splitWords (t.data.map lowerChar)).map fun l => String.mk l

/-- Result record of the sentiment analyzer: `{"polarity": ..., "label": ...}`. -/
structure SentResult where
  polarity : ℚ
  label : String
deriving DecidableEq, Repr

/-- `positive_count` in `_rule_based_sentiment`: tokens found in the
positive lexicon. -/
def positiveCount (t : String) : ℕ :=
  (tokenize t).countP fun w => POSITIVE_WORDS.contains w

/-- `negative_count` in `_rule_based_sentiment`. -/
def negativeCount (t : String) : ℕ :=
  (tokenize t).countP fun w => NEGATIVE_WORDS.contains w

/-- `polarity = (positive_count - negative_count) / total`. -/
def rulePolarity (t : String) : ℚ :=
  ((positiveCount t : ℚ) - (negativeCount t : ℚ)) /
    ((positiveCount t : ℚ) + (negativeCount t : ℚ))

/-- The threshold chain assigning the label from the polarity. -/
def ruleLabel (q : ℚ) : String :=
  if q > 1/5 then "positive"
  else if q < -(1/5) then "negative"
  else "neutral"

/-- `_rule_based_sentiment` from `sentiment.py`. -/
def ruleBasedSentiment (t : String) : SentResult :=
  if positiveCount t + negativeCount t = 0 then ⟨0, "neutral"⟩
  else ⟨rulePolarity t, ruleLabel (rulePolarity t)⟩

/-- `not text or not text.strip()`: the input is empty or whitespace-only. -/
def isBlank (t : String) : Bool := t.data.all Char.isWhitespace

/-- `analyze_sentiment` from `sentiment.py`, on the rule-based fallback path
(the external Ollama call returned `None`).  The final clamp
`max(-1.0, min(1.0, polarity))` is kept. -/
def analyzeSentiment (t : String) : SentResult :=
  if isBlank t then ⟨0, "neutral"⟩
  else ⟨max (-1) (min 1 (ruleBasedSentiment t).polarity), (ruleBasedSentiment t).label⟩

end Sentiment

/-! ## Trend engine (`app/data_insights/trend_engine.py`) -/

namespace TrendEngine

/-- A row of the `text_summary` query in `detect_trends_for_sector`: only the
keyword list and the timestamp are used by the computation.  Timestamps are
abstracted as integers. -/
structure TextRow where
  keywords : List String
  created_at : ℤ
deriving DecidableEq, Repr

/-- A candidate trend row as built in `detect_trends_for_sector`. -/
structure TrendRow where
  sector : String
  term : String
  count_short : ℕ
  count_long : ℕ
  freq_short : ℚ
  freq_long : ℚ
  delta_pct : ℚ
  trend_label : String
  period_start : ℤ
  period_end : ℤ
deriving DecidableEq, Repr

/-- Round a rational to the nearest integer, ties to even — the behaviour of
Python `round` on exact halves. -/
def roundHalfEven (q : ℚ) : ℤ :=
  if q - ⌊q⌋ < 1/2 then ⌊q⌋
  else if 1/2 < q - ⌊q⌋ then ⌊q⌋ + 1
  else if ⌊q⌋ % 2 = 0 then ⌊q⌋ else ⌊q⌋ + 1

/-- Python `round(q, d)` over exact rationals. -/
def roundTo (d : ℕ) (q : ℚ) : ℚ :=
  (roundHalfEven (q * 10 ^ d) : ℚ) / 10 ^ d

/-- All keywords of a window, concatenated in row order (steps 5/6 of
`detect_trends_for_sector`). -/
def keywordsIn : List TextRow → List String
  | [] => []
  | r :: rs => r.keywords ++ keywordsIn rs

/-- `df[df['created_at'] >= start]`. -/
def windowRows (rows : List TextRow) (start : ℤ) : List TextRow :=
  rows.filter fun r => start ≤ r.created_at

/-- `count / max(len(df_window), 1)`: normalised frequency with the
divide-by-zero floor. -/
def normFreq (count len : ℕ) : ℚ :=
  (count : ℚ) / ((max len 1 : ℕ) : ℚ)

/-- The percentage delta between the short- and long-window normalised
frequencies (`delta_pct` in step 7). -/
def deltaPct (cl ll cs ls : ℕ) : ℚ :=
  if 0 < normFreq cl ll then
    ((normFreq cs ls - normFreq cl ll) / normFreq cl ll) * 100
  else if 0 < normFreq cs ls then 100 else 0

/-- The threshold chain assigning `trend_label` from `delta_pct`. -/
def classify (d : ℚ) : String :=
  if 50 ≤ d then "rising"
  else if d ≤ -30 then "falling"
  else "stable"

/-- The candidate row built for one term in the loop of step 7: `none` when
the term is dropped (long-window count below the noise floor, or a "stable"
classification). -/
def candidateOf (sector : Option String) (kwLong kwShort : List String)
    (lenL lenS : ℕ) (ps pe : ℤ) (term : String) : Option TrendRow :=
  if kwLong.count term < 2 then none
  else if classify (deltaPct (kwLong.count term) lenL (kwShort.count term) lenS) = "rising" ∨
      classify (deltaPct (kwLong.count term) lenL (kwShort.count term) lenS) = "falling" then
    some ⟨sector.getD "general", term, kwShort.count term, kwLong.count term,
      roundTo 4 (normFreq (kwShort.count term) lenS),
      roundTo 4 (normFreq (kwLong.count term) lenL),
      roundTo 2 (deltaPct (kwLong.count term) lenL (kwShort.count term) lenS),
      classify (deltaPct (kwLong.count term) lenL (kwShort.count term) lenS), ps, pe⟩
  else none

/-- The `sort_values('delta_pct', ascending=False)` order: larger signed
`delta_pct` first. -/
def deltaGE (a b : TrendRow) : Prop := b.delta_pct ≤ a.delta_pct

instance : DecidableRel deltaGE :=
  fun a b => inferInstanceAs (Decidable (b.delta_pct ≤ a.delta_pct))

instance : IsTotal TrendRow deltaGE :=
  ⟨fun a b => le_total b.delta_pct a.delta_pct⟩

instance : IsTrans TrendRow deltaGE :=
  ⟨fun _ _ _ h1 h2 => le_trans h2 h1⟩

/-- `TrendEngine.detect_trends_for_sector` from `trend_engine.py`, given the
rows returned by the `text_summary` range query (the window
`[date_long_start, date_end]`, most recent first).  Terms are iterated in
first-occurrence order of the combined keyword lists (the Python code
iterates a `set`, whose order is unspecified); the final
`sort_values('delta_pct', ascending=False)` makes the output order
independent of that choice except among equal deltas. -/
def detectTrendsForSector (rows : List TextRow) (sector : Option String)
    (longStart shortStart dateEnd : ℤ) : List TrendRow :=
  if rows.isEmpty then []
  else if (keywordsIn rows).isEmpty then []
  else
    List.insertionSort deltaGE
      (((keywordsIn (windowRows rows longStart) ++ keywordsIn (windowRows rows shortStart)).dedup).filterMap
        (candidateOf sector (keywordsIn (windowRows rows longStart))
          (keywordsIn (windowRows rows shortStart))
          (windowRows rows longStart).length (windowRows rows shortStart).length
          longStart dateEnd))

end TrendEngine

end Syntegra

namespace Syntegra

open TrendEngine

/-- The trend classification chain, characterised. -/
theorem classify_spec (d : ℚ) :
    (classify d = "rising" ↔ 50 ≤ d) ∧
    (classify d = "falling" ↔ d ≤ -30) ∧
    (classify d = "stable" ↔ (-30 < d ∧ d < 50)) := by
  unfold classify
  split_ifs with h1 h2
  · exact ⟨⟨fun _ => h1, fun _ => rfl⟩,
      ⟨fun hcon => absurd hcon (by decide), fun hle => absurd hle (by linarith)⟩,
      ⟨fun hcon => absurd hcon (by decide), fun hc => absurd h1 (by push_neg; exact hc.2)⟩⟩
  · exact ⟨⟨fun hcon => absurd hcon (by decide), fun hle => absurd hle (by linarith)⟩,
      ⟨fun _ => h2, fun _ => rfl⟩,
      ⟨fun hcon => absurd hcon (by decide), fun hc => absurd h2 (by push_neg; exact hc.1)⟩⟩
  · push_neg at h1 h2
    exact ⟨⟨fun hcon => absurd hcon (by decide), fun hle => absurd hle (by linarith)⟩,
      ⟨fun hcon => absurd hcon (by decide), fun hle => absurd hle (by linarith)⟩,
      ⟨fun _ => ⟨h2, h1⟩, fun _ => rfl⟩⟩

/-- Destructing a successful candidate build. -/
theorem candidateOf_eq_some {sector kwLong kwShort lenL lenS ps pe term r}
    (h : candidateOf sector kwLong kwShort lenL lenS ps pe term = some r) :
    r.term = term ∧ 2 ≤ kwLong.count term ∧
    r.count_long = kwLong.count term ∧ r.count_short = kwShort.count term ∧
    r.delta_pct = roundTo 2 (deltaPct (kwLong.count term) lenL (kwShort.count term) lenS) ∧
    r.trend_label = classify (deltaPct (kwLong.count term) lenL (kwShort.count term) lenS) ∧
    (classify (deltaPct (kwLong.count term) lenL (kwShort.count term) lenS) = "rising" ∨
      classify (deltaPct (kwLong.count term) lenL (kwShort.count term) lenS) = "falling") := by
  unfold candidateOf at h
  split_ifs at h with h1 h2
  · cases h
    push_neg at h1
    exact ⟨rfl, h1, rfl, rfl, rfl, rfl, h2⟩

/-- A successful candidate build, from the qualifying conditions. -/
theorem candidateOf_isSome {kwLong kwShort : List String} {lenL lenS : ℕ} {term : String}
    (sector : Option String) (ps pe : ℤ)
    (hc : 2 ≤ kwLong.count term)
    (hd : 50 ≤ deltaPct (kwLong.count term) lenL (kwShort.count term) lenS ∨
      deltaPct (kwLong.count term) lenL (kwShort.count term) lenS ≤ -30) :
    ∃ r, candidateOf sector kwLong kwShort lenL lenS ps pe term = some r ∧ r.term = term := by
  have h1 : ¬ kwLong.count term < 2 := by omega
  have h2 : classify (deltaPct (kwLong.count term) lenL (kwShort.count term) lenS) = "rising" ∨
      classify (deltaPct (kwLong.count term) lenL (kwShort.count term) lenS) = "falling" := by
    rcases hd with hd | hd
    · exact Or.inl ((classify_spec _).1.mpr hd)
    · have hnr : ¬ (50 : ℚ) ≤ deltaPct (kwLong.count term) lenL (kwShort.count term) lenS := by
        linarith
      refine Or.inr ?_
      unfold classify
      rw [if_neg hnr, if_pos hd]
  refine ⟨⟨sector.getD "general", term, kwShort.count term, kwLong.count term,
    roundTo 4 (normFreq (kwShort.count term) lenS),
    roundTo 4 (normFreq (kwLong.count term) lenL),
    roundTo 2 (deltaPct (kwLong.count term) lenL (kwShort.count term) lenS),
    classify (deltaPct (kwLong.count term) lenL (kwShort.count term) lenS), ps, pe⟩, ?_, rfl⟩
  unfold candidateOf
  rw [if_neg h1, if_pos h2]

/-- Filtering a window never increases a keyword's count. -/
theorem count_keywordsIn_windowRows_le (rows : List TextRow) (s : ℤ) (t : String) :
    (keywordsIn (windowRows rows s)).count t ≤ (keywordsIn rows).count t := by
  induction rows with
  | nil => simp [windowRows, keywordsIn]
  | cons r rs ih =>
      by_cases hp : s ≤ r.created_at
      · have hw : windowRows (r :: rs) s = r :: windowRows rs s := by
          simp [windowRows, List.filter_cons, hp]
        rw [hw, keywordsIn, keywordsIn, List.count_append, List.count_append]
        omega
      · have hw : windowRows (r :: rs) s = windowRows rs s := by
          simp [windowRows, List.filter_cons, hp]
        rw [hw, keywordsIn, List.count_append]
        omega

/-- A term's long-window raw count, as used by `detect_trends_for_sector`. -/
def longCount (rows : List TextRow) (longStart : ℤ) (t : String) : ℕ :=
  (keywordsIn (windowRows rows longStart)).count t

/-- A term's short-window raw count. -/
def shortCount (rows : List TextRow) (shortStart : ℤ) (t : String) : ℕ :=
  (keywordsIn (windowRows rows shortStart)).count t

/-- The exact (unrounded) `delta_pct` the engine computes for a term. -/
def termDelta (rows : List TextRow) (longStart shortStart : ℤ) (t : String) : ℚ :=
  deltaPct (longCount rows longStart t) (windowRows rows longStart).length
    (shortCount rows shortStart t) (windowRows rows shortStart).length

/-- C1 (amended): every returned candidate row belongs to a term whose
long-window count is at least 2; its `delta_pct` field is the delta formula
rounded to two decimals (ties to even); its status is `"rising"` iff the
unrounded delta is `≥ 50` and `"falling"` iff it is `≤ -30`; `"stable"`
rows never appear; and every term with long-window count `≥ 2` whose delta
is outside `(-30, 50)` does appear. -/
theorem detectTrends_delta_formula_spec (rows : List TextRow) (sector : Option String)
    (longStart shortStart dateEnd : ℤ) :
    (∀ r ∈ detectTrendsForSector rows sector longStart shortStart dateEnd,
       2 ≤ longCount rows longStart r.term ∧
       r.count_long = longCount rows longStart r.term ∧
       r.count_short = shortCount rows shortStart r.term ∧
       r.delta_pct = roundTo 2 (termDelta rows longStart shortStart r.term) ∧
       (r.trend_label = "rising" ↔ 50 ≤ termDelta rows longStart shortStart r.term) ∧
       (r.trend_label = "falling" ↔ termDelta rows longStart shortStart r.term ≤ -30) ∧
       r.trend_label ≠ "stable") ∧
    (∀ t : String, 2 ≤ longCount rows longStart t →
       (50 ≤ termDelta rows longStart shortStart t ∨
         termDelta rows longStart shortStart t ≤ -30) →
       ∃ r ∈ detectTrendsForSector rows sector longStart shortStart dateEnd, r.term = t) := by
  by_cases hre : rows.isEmpty
  · have hrows : rows = [] := List.isEmpty_iff.mp hre
    subst hrows
    constructor
    · intro r hr
      rw [detectTrendsForSector] at hr
      simp at hr
    · intro t hc _
      exact absurd hc (by simp [longCount, windowRows, keywordsIn])
  · by_cases hke : (keywordsIn rows).isEmpty
    · have hkw : keywordsIn rows = [] := List.isEmpty_iff.mp hke
      have hout : detectTrendsForSector rows sector longStart shortStart dateEnd = [] := by
        rw [detectTrendsForSector, if_neg (by simpa using hre), if_pos (by simp [hke])]
      constructor
      · intro r hr
        rw [hout] at hr
        simp at hr
      · intro t hc _
        exfalso
        have hle := count_keywordsIn_windowRows_le rows longStart t
        rw [hkw] at hle
        simp only [List.count_nil] at hle
        unfold longCount at hc
        omega
    · have hout : detectTrendsForSector rows sector longStart shortStart dateEnd =
          List.insertionSort deltaGE
            (((keywordsIn (windowRows rows longStart) ++
               keywordsIn (windowRows rows shortStart)).dedup).filterMap
              (candidateOf sector (keywordsIn (windowRows rows longStart))
                (keywordsIn (windowRows rows shortStart))
                (windowRows rows longStart).length (windowRows rows shortStart).length
                longStart dateEnd)) := by
        rw [detectTrendsForSector, if_neg (by simpa using hre), if_neg (by simpa using hke)]
      constructor
      · intro r hr
        rw [hout] at hr
        rw [(List.perm_insertionSort deltaGE _).mem_iff, List.mem_filterMap] at hr
        obtain ⟨t, -, hsome⟩ := hr
        obtain ⟨hterm, hc2, hcl, hcs, hdp, hlab, hrf⟩ := candidateOf_eq_some hsome
        subst hterm
        refine ⟨hc2, hcl, hcs, hdp, ?_, ?_, ?_⟩
        · rw [hlab]
          exact (classify_spec _).1
        · rw [hlab]
          exact (classify_spec _).2.1
        · rw [hlab]
          intro hst
          rcases hrf with hcon | hcon <;> rw [hcon] at hst <;> exact absurd hst (by decide)
      · intro t hc hd
        obtain ⟨r, hsome, hterm⟩ :=
          @candidateOf_isSome (keywordsIn (windowRows rows longStart))
            (keywordsIn (windowRows rows shortStart))
            (windowRows rows longStart).length
            (windowRows rows shortStart).length
            t sector longStart dateEnd hc hd
        refine ⟨r, ?_, hterm⟩
        rw [hout, (List.perm_insertionSort deltaGE _).mem_iff, List.mem_filterMap]
        refine ⟨t, ?_, hsome⟩
        have hmem : t ∈ keywordsIn (windowRows rows longStart) := by
          have : 0 < (keywordsIn (windowRows rows longStart)).count t := by
            unfold longCount at hc
            omega
          exact List.count_pos_iff.mp this
        exact List.mem_dedup.mpr (List.mem_append_left _ hmem)

/-- Ten text rows, most recent first: five in the short window (four of them
tagged "a"), five older rows (one "a", four "b"). -/
def exampleRowsA : List TextRow :=
  [⟨["a"], 1⟩, ⟨["a"], 1⟩, ⟨["a"], 1⟩, ⟨["a"], 1⟩, ⟨[], 1⟩,
   ⟨["a"], -1⟩, ⟨["b"], -1⟩, ⟨["b"], -1⟩, ⟨["b"], -1⟩, ⟨["b"], -1⟩]

/-- C3 counterexample: on `exampleRowsA` the engine returns the rising row
(`delta_pct = 60`) before the falling row (`delta_pct = -100`), so the list
is not sorted by absolute delta descending: `|60| < |-100|`. -/
theorem detectTrends_abs_sort_counterexample :
    ((detectTrendsForSector exampleRowsA (some "retail") (-5) 0 2).map
      fun r => r.delta_pct) = [60, -100] ∧
    ¬ |(60 : ℚ)| ≥ |(-100 : ℚ)| := by
  constructor
  · simp +decide [exampleRowsA, detectTrendsForSector, keywordsIn, windowRows,
      candidateOf, deltaPct, normFreq, classify, roundTo, roundHalfEven,
      List.insertionSort, List.orderedInsert, List.dedup, deltaGE,
      List.filter_cons, List.count_cons, Nat.max_def, List.filterMap]
    norm_num [Int.fract, deltaGE]
  · rw [abs_of_nonneg (by norm_num), abs_of_nonpos (by norm_num)]
    norm_num

/-- Seven text rows: three in the short window (two tagged "c"), four older
(one "c").  Term "c": long count 3 of 7 records, short count 2 of 3. -/
def exampleRowsB : List TextRow :=
  [⟨["c"], 1⟩, ⟨["c"], 1⟩, ⟨[], 1⟩, ⟨["c"], -1⟩, ⟨[], -1⟩, ⟨[], -1⟩, ⟨[], -1⟩]

/-- C1 counterexample: on `exampleRowsB` the single candidate row for "c"
stores `delta_pct = 55.56` (the formula value rounded to two decimals),
while the exact formula value is `500/9 = 55.5…`, so the stored field does
not equal the formula. -/
theorem detectTrends_delta_rounding_counterexample :
    ((detectTrendsForSector exampleRowsB none (-5) 0 2).map
      fun r => (r.term, r.delta_pct)) = [("c", 1389/25)] ∧
    termDelta exampleRowsB (-5) 0 "c" = 500/9 ∧
    (1389/25 : ℚ) ≠ 500/9 := by
  refine ⟨?_, ?_, by norm_num⟩
  · norm_num [exampleRowsB, detectTrendsForSector, keywordsIn, windowRows,
      candidateOf, deltaPct, normFreq, classify, roundTo, roundHalfEven,
      List.insertionSort, List.orderedInsert, List.dedup, deltaGE,
      List.filter_cons, List.count_cons, Nat.max_def, List.filterMap]
  · norm_num [termDelta, exampleRowsB, longCount, shortCount, keywordsIn,
      windowRows, deltaPct, normFreq, List.filter_cons, List.count_cons,
      Nat.max_def]

/-- C3 (amended): the candidate list is sorted by *signed* `delta_pct` in
descending order. -/
theorem detectTrends_sorted_by_delta_desc (rows : List TextRow) (sector : Option String)
    (longStart shortStart dateEnd : ℤ) :
    (detectTrendsForSector rows sector longStart shortStart dateEnd).Pairwise
      (fun a b => b.delta_pct ≤ a.delta_pct) := by
  unfold detectTrendsForSector
  split_ifs
  · exact List.Pairwise.nil
  · exact List.Pairwise.nil
  · exact List.sorted_insertionSort deltaGE _

end Syntegra

namespace Syntegra

open Sentiment

/-- The label-threshold chain of `_rule_based_sentiment`, characterised. -/
theorem ruleLabel_spec (q : ℚ) :
    (ruleLabel q = "positive" ↔ 1/5 < q) ∧
    (ruleLabel q = "negative" ↔ q < -(1/5)) ∧
    (ruleLabel q = "neutral" ↔ (-(1/5) ≤ q ∧ q ≤ 1/5)) := by
  unfold ruleLabel
  split_ifs with h1 h2
  · exact ⟨⟨fun _ => h1, fun _ => rfl⟩,
      ⟨fun hcon => absurd hcon (by decide), fun hlt => absurd hlt (by linarith)⟩,
      ⟨fun hcon => absurd hcon (by decide), fun hc => absurd h1 (by push_neg; exact hc.2)⟩⟩
  · exact ⟨⟨fun hcon => absurd hcon (by decide), fun hlt => absurd hlt (by linarith)⟩,
      ⟨fun _ => h2, fun _ => rfl⟩,
      ⟨fun hcon => absurd hcon (by decide), fun hc => absurd h2 (by push_neg; exact hc.1)⟩⟩
  · push_neg at h1 h2
    exact ⟨⟨fun hcon => absurd hcon (by decide), fun hlt => absurd hlt (by push_neg; exact h1)⟩,
      ⟨fun hcon => absurd hcon (by decide), fun hlt => absurd hlt (by push_neg; exact h2)⟩,
      ⟨fun _ => ⟨h2, h1⟩, fun _ => rfl⟩⟩

/-- The rule-based polarity is always within the closed interval `[-1, 1]`. -/
theorem ruleBased_polarity_bounds (t : String) :
    -1 ≤ (ruleBasedSentiment t).polarity ∧ (ruleBasedSentiment t).polarity ≤ 1 := by
  by_cases h : positiveCount t + negativeCount t = 0
  · rw [ruleBasedSentiment, if_pos h]
    norm_num
  · rw [ruleBasedSentiment, if_neg h]
    have hpos : (0 : ℚ) < (positiveCount t : ℚ) + (negativeCount t : ℚ) := by
      have := Nat.pos_of_ne_zero h
      exact_mod_cast this
    unfold rulePolarity
    constructor
    · rw [le_div_iff₀ hpos]
      nlinarith [(Nat.cast_nonneg (positiveCount t) : (0 : ℚ) ≤ positiveCount t),
        (Nat.cast_nonneg (negativeCount t) : (0 : ℚ) ≤ negativeCount t)]
    · rw [div_le_one hpos]
      nlinarith [(Nat.cast_nonneg (positiveCount t) : (0 : ℚ) ≤ positiveCount t),
        (Nat.cast_nonneg (negativeCount t) : (0 : ℚ) ≤ negativeCount t)]

/-- In every case, the rule-based result's label is exactly the threshold
chain applied to the result's polarity. -/
theorem ruleBased_label_eq (t : String) :
    (ruleBasedSentiment t).label = ruleLabel (ruleBasedSentiment t).polarity := by
  by_cases h : positiveCount t + negativeCount t = 0
  · rw [ruleBasedSentiment, if_pos h]
    show "neutral" = ruleLabel 0
    rw [ruleLabel]
    norm_num
  · rw [ruleBasedSentiment, if_neg h]

/-- C6: on the rule-based path, `analyze_sentiment` returns a polarity in
`[-1, 1]`; the label is `"positive"` iff the polarity exceeds `0.2`,
`"negative"` iff it is below `-0.2`, and `"neutral"` otherwise; blank input
yields polarity `0` and label `"neutral"`. -/
theorem analyzeSentiment_polarity_label_spec (t : String) :
    -1 ≤ (analyzeSentiment t).polarity ∧ (analyzeSentiment t).polarity ≤ 1 ∧
    ((analyzeSentiment t).label = "positive" ↔ 1/5 < (analyzeSentiment t).polarity) ∧
    ((analyzeSentiment t).label = "negative" ↔ (analyzeSentiment t).polarity < -(1/5)) ∧
    ((analyzeSentiment t).label = "neutral" ↔
      (-(1/5) ≤ (analyzeSentiment t).polarity ∧ (analyzeSentiment t).polarity ≤ 1/5)) ∧
    (isBlank t = true → (analyzeSentiment t).polarity = 0 ∧ (analyzeSentiment t).label = "neutral") := by
  by_cases hb : isBlank t
  · rw [analyzeSentiment, if_pos hb]
    refine ⟨by norm_num, by norm_num, ?_, ?_, ?_, fun _ => ⟨rfl, rfl⟩⟩
    · exact ⟨fun hcon => absurd hcon (by decide), fun hlt => absurd hlt (by norm_num)⟩
    · exact ⟨fun hcon => absurd hcon (by decide), fun hlt => absurd hlt (by norm_num)⟩
    · exact ⟨fun _ => by norm_num, fun _ => rfl⟩
  · have hbounds := ruleBased_polarity_bounds t
    have hres : analyzeSentiment t = ruleBasedSentiment t := by
      rw [analyzeSentiment, if_neg hb, min_eq_right hbounds.2, max_eq_right hbounds.1]
    rw [hres]
    have hlab := ruleBased_label_eq t
    have hspec := ruleLabel_spec (ruleBasedSentiment t).polarity
    rw [hlab]
    exact ⟨hbounds.1, hbounds.2, hspec.1, hspec.2.1, hspec.2.2,
      fun hcon => absurd hcon hb⟩

end Syntegra

namespace Syntegra

/-! ## Insight generator (`app/data_insights/insight_generator.py`) -/

namespace InsightGen

/-- A row of the `trend_signals` query in `_get_trends`. -/
structure SignalRow where
  sector : String
  term : String
  frequency : ℤ
  delta_pct : ℚ
  status : String
  period_start : ℤ
  created_at : ℤ
deriving DecidableEq, Repr

/-- `ORDER BY frequency DESC`: larger frequency first. -/
def freqGE (a b : SignalRow) : Prop := b.frequency ≤ a.frequency

instance : DecidableRel freqGE :=
  fun a b => inferInstanceAs (Decidable (b.frequency ≤ a.frequency))

instance : IsTotal SignalRow freqGE :=
  ⟨fun a b => le_total b.frequency a.frequency⟩

instance : IsTrans SignalRow freqGE :=
  ⟨fun _ _ _ h1 h2 => le_trans h2 h1⟩

/-- `InsightGenerator._get_trends`: pull the signals created after the
cutoff, ordered by frequency descending, limited to 20. -/
def getTrends (table : List SignalRow) (cutoff : ℤ) : List SignalRow :=
  (List.insertionSort freqGE (table.filter fun r => cutoff ≤ r.created_at)).take 20

/-- One finding dictionary of the generator.  The free-text `finding` message
is abstracted to the term it mentions (`about`); absent keys `is_risk` /
`severity` / `is_opportunity` / `strength` are `false` / `0` (Python
`dict.get` defaults). -/
structure Finding where
  about : String
  is_risk : Bool
  severity : ℕ
  is_opportunity : Bool
  strength : ℕ
deriving DecidableEq, Repr

/-- The branch on `emergent` then `trend_data` at the end of
`_analyze_emerging_trends`: the head of a non-empty `emergent` list gives the
opportunity finding, else the head of `trend_data` gives the neutral
most-frequent-term finding. -/
def pickTrendFinding : List SignalRow → List SignalRow → Option Finding
  | top :: _, _ => some ⟨top.term, false, 0, true, if 5 < top.frequency then 3 else 2⟩
  | [], top :: _ => some ⟨top.term, false, 0, false, 0⟩
  | [], [] => none

/-- `InsightGenerator._analyze_emerging_trends`. -/
def analyzeEmergingTrends (trend_data : List SignalRow) : Option Finding :=
  if trend_data.isEmpty then none
  else pickTrendFinding (trend_data.filter fun t => t.status = "emergent") trend_data

/-- A pulled `text_summary` row, reduced to the only field
`_analyze_sentiment_pattern` reads: the (nullable) sentiment label. -/
structure TextSummaryRow where
  sentiment : Option String
deriving DecidableEq, Repr

/-- `[d['sentiment'] for d in text_data if d.get('sentiment')]` — null and
empty labels are skipped (Python truthiness). -/
def sentimentsOf (rows : List TextSummaryRow) : List String :=
  rows.filterMap fun d =>
    match d.sentiment with
    | some s => if s.isEmpty then none else some s
    | none => none

/-- `(sentiment_counts.get('negative', 0) / total) * 100`. -/
def negativePct (sents : List String) : ℚ :=
  ((sents.count "negative" : ℚ) / (sents.length : ℚ)) * 100

/-- `(sentiment_counts.get('positive', 0) / total) * 100`. -/
def positivePct (sents : List String) : ℚ :=
  ((sents.count "positive" : ℚ) / (sents.length : ℚ)) * 100

/-- `InsightGenerator._analyze_sentiment_pattern`. -/
def analyzeSentimentPattern (text_data : List TextSummaryRow) : Option Finding :=
  if text_data.isEmpty then none
  else if (sentimentsOf text_data).isEmpty then none
  else
    if 50 < negativePct (sentimentsOf text_data) then
      some ⟨"", true, if 70 < negativePct (sentimentsOf text_data) then 3 else 2, false, 0⟩
    else if 60 < positivePct (sentimentsOf text_data) then
      some ⟨"", false, 0, true, if 80 < positivePct (sentimentsOf text_data) then 3 else 2⟩
    else some ⟨"", false, 0, false, 0⟩

/-- A pulled `kpi_summary` row, reduced to the fields `_analyze_kpi_trend`
reads (rows arrive ordered by `calculated_at` descending). -/
structure KpiSummaryRow where
  kpi_name : String
  kpi_value : ℚ
deriving DecidableEq, Repr

/-- Append a value to its name's group, preserving first-appearance group
order (`defaultdict(list)` filled in data order). -/
def addToGroups (name : String) (v : ℚ) :
    List (String × List ℚ) → List (String × List ℚ)
  | [] => [(name, [v])]
  | (n, vs) :: gs =>
      if n = name then (n, vs ++ [v]) :: gs else (n, vs) :: addToGroups name v gs

/-- `kpi_groups` of `_analyze_kpi_trend`. -/
def groupKpis (rows : List KpiSummaryRow) : List (String × List ℚ) :=
  rows.foldl (fun gs r => addToGroups r.kpi_name r.kpi_value gs) []

/-- `max(kpi_groups.items(), key=lambda x: len(x[1]))` — Python `max` keeps
the first maximal item. -/
def mainGroup : List (String × List ℚ) → Option (String × List ℚ)
  | [] => none
  | g :: gs =>
      some (gs.foldl (fun best h => if best.2.length < h.2.length then h else best) g)

/-- `change_pct = ((current - avg) / avg * 100) if avg != 0 else 0`, where
`current = values[0]` (most recent) and `avg` is the group mean. -/
def changePct (values : List ℚ) : ℚ :=
  if values.sum / (values.length : ℚ) ≠ 0 then
    ((values.headD 0 - values.sum / (values.length : ℚ)) /
      (values.sum / (values.length : ℚ))) * 100
  else 0

/-- `InsightGenerator._analyze_kpi_trend`. -/
def analyzeKpiTrend (kpi_data : List KpiSummaryRow) : Option Finding :=
  if kpi_data.isEmpty then none
  else
    match mainGroup (groupKpis kpi_data) with
    | none => none
    | some (name, values) =>
        if 2 ≤ values.length then
          if 20 < changePct values then
            some ⟨name, false, 0, true, if 50 < changePct values then 3 else 2⟩
          else if changePct values < -20 then
            some ⟨name, true, if changePct values < -50 then 3 else 2, false, 0⟩
          else some ⟨name, false, 0, false, 0⟩
        else some ⟨name, false, 0, false, 0⟩

/-- `InsightGenerator._calculate_risk_level`. -/
def calculateRiskLevel (indicators : List ℕ) : String :=
  if indicators.isEmpty then "low"
  else
    if 3 ≤ (indicators.sum : ℚ) / (indicators.length : ℚ) then "critical"
    else if 5/2 ≤ (indicators.sum : ℚ) / (indicators.length : ℚ) then "high"
    else if 3/2 ≤ (indicators.sum : ℚ) / (indicators.length : ℚ) then "medium"
    else "low"

/-- `InsightGenerator._calculate_opportunity_level`. -/
def calculateOpportunityLevel (indicators : List ℕ) : String :=
  if indicators.isEmpty then "low"
  else
    if 3 ≤ (indicators.sum : ℚ) / (indicators.length : ℚ) then "high"
    else if 2 ≤ (indicators.sum : ℚ) / (indicators.length : ℚ) then "medium"
    else "low"

/-- The `risk_indicators` list collected by `generate_insights_for_client`:
the sentiment finding's severity when it is a risk, then the KPI finding's
severity when it is a risk (the trend finding never contributes a risk). -/
def riskIndicators (text_data : List TextSummaryRow) (kpi_data : List KpiSummaryRow) : List ℕ :=
  (match analyzeSentimentPattern text_data with
   | some f => if f.is_risk then [f.severity] else []
   | none => []) ++
  (match analyzeKpiTrend kpi_data with
   | some f => if f.is_risk then [f.severity] else []
   | none => [])

/-- The `risk_level` of the generated insight, as a function of the pulled
text records and KPI rows. -/
def riskLevelOf (text_data : List TextSummaryRow) (kpi_data : List KpiSummaryRow) : String :=
  calculateRiskLevel (riskIndicators text_data kpi_data)

/-- The order low < medium < high < critical on risk levels. -/
def riskRank (level : String) : ℕ :=
  if level = "critical" then 3
  else if level = "high" then 2
  else if level = "medium" then 1
  else 0

/-- The KPI finding's risk severity, if any. -/
def kpiRiskSeverity (kpi_data : List KpiSummaryRow) : Option ℕ :=
  match analyzeKpiTrend kpi_data with
  | some f => if f.is_risk then some f.severity else none
  | none => none

end InsightGen

end Syntegra

namespace Syntegra

open InsightGen

/-- The pulled trend list is sorted by frequency descending. -/
theorem getTrends_sorted (tbl : List SignalRow) (cutoff : ℤ) :
    (getTrends tbl cutoff).Pairwise freqGE :=
  (List.sorted_insertionSort freqGE _).sublist (List.take_sublist _ _)

/-- C2 (amended): only status exactly `"emergent"` triggers the opportunity
branch of `_analyze_emerging_trends`; when some pulled signal is emergent the
finding is an opportunity for the highest-frequency emergent signal (strength
3 iff its frequency exceeds 5), and otherwise — including when signals have
status `"rising"` — the most frequent pulled signal is reported as a neutral
finding. -/
theorem analyzeEmergingTrends_spec (tbl : List SignalRow) (cutoff : ℤ) :
    ((∃ s ∈ getTrends tbl cutoff, s.status = "emergent") →
      ∃ s ∈ getTrends tbl cutoff, s.status = "emergent" ∧
        analyzeEmergingTrends (getTrends tbl cutoff) =
          some ⟨s.term, false, 0, true, if 5 < s.frequency then 3 else 2⟩ ∧
        ∀ s' ∈ getTrends tbl cutoff, s'.status = "emergent" →
          s'.frequency ≤ s.frequency) ∧
    ((∀ s ∈ getTrends tbl cutoff, s.status ≠ "emergent") →
      ∀ s0 rest, getTrends tbl cutoff = s0 :: rest →
        analyzeEmergingTrends (getTrends tbl cutoff) =
          some ⟨s0.term, false, 0, false, 0⟩ ∧
        ∀ s' ∈ getTrends tbl cutoff, s'.frequency ≤ s0.frequency) := by
  have hsorted := getTrends_sorted tbl cutoff
  constructor
  · rintro ⟨s0, hs0, hst0⟩
    have hne : (getTrends tbl cutoff).isEmpty = false := by
      cases h : getTrends tbl cutoff with
      | nil => rw [h] at hs0; simp at hs0
      | cons a l => rfl
    have hs0f : s0 ∈ (getTrends tbl cutoff).filter (fun t => t.status = "emergent") :=
      List.mem_filter.mpr ⟨hs0, by simpa using hst0⟩
    cases hfil : (getTrends tbl cutoff).filter (fun t => t.status = "emergent") with
    | nil => rw [hfil] at hs0f; simp at hs0f
    | cons top rest =>
        have htopf : top ∈ (getTrends tbl cutoff).filter (fun t => t.status = "emergent") := by
          rw [hfil]; exact List.mem_cons_self top rest
        refine ⟨top, List.mem_of_mem_filter htopf, by simpa using (List.of_mem_filter htopf), ?_, ?_⟩
        · rw [analyzeEmergingTrends, if_neg (by simp [hne]), hfil]
          rfl
        · intro s' hs' hst'
          have hs'f : s' ∈ (getTrends tbl cutoff).filter (fun t => t.status = "emergent") :=
            List.mem_filter.mpr ⟨hs', by simpa using hst'⟩
          rw [hfil] at hs'f
          rcases List.mem_cons.mp hs'f with heq | hmem
          · rw [heq]
          · have hpf : ((getTrends tbl cutoff).filter
                (fun t => t.status = "emergent")).Pairwise freqGE :=
              hsorted.sublist (List.filter_sublist _)
            rw [hfil] at hpf
            exact (List.pairwise_cons.mp hpf).1 s' hmem
  · intro hno s0 rest hcons
    have hne : (getTrends tbl cutoff).isEmpty = false := by rw [hcons]; rfl
    have hfil : (getTrends tbl cutoff).filter (fun t => t.status = "emergent") = [] := by
      rw [List.filter_eq_nil_iff]
      intro a ha
      simpa using hno a ha
    constructor
    · rw [analyzeEmergingTrends, if_neg (by simp [hne]), hfil, hcons]
      rfl
    · intro s' hs'
      rw [hcons] at hs' hsorted
      rcases List.mem_cons.mp hs' with heq | hmem
      · rw [heq]
      · exact (List.pairwise_cons.mp hsorted).1 s' hmem

/-- A single pulled signal whose status is `"rising"` (the status the trend
engine actually persists for an upward trend). -/
def exampleSignals : List SignalRow := [⟨"general", "refund", 10, 80, "rising", 0, 5⟩]

/-- C2 counterexample: the pulled set contains a signal of status `"rising"`
with frequency 10, yet `_analyze_emerging_trends` produces the *neutral*
most-frequent-term finding (no opportunity, strength 0) instead of the
opportunity finding of strength 3 the claim requires for a rising signal. -/
theorem analyzeEmergingTrends_rising_counterexample :
    ((getTrends exampleSignals 0).map fun s => (s.status, s.frequency)) = [("rising", 10)] ∧
    analyzeEmergingTrends (getTrends exampleSignals 0) =
      some ⟨"refund", false, 0, false, 0⟩ := by
  constructor
  · simp +decide [exampleSignals, getTrends, List.insertionSort]
  · simp +decide [exampleSignals, getTrends, List.insertionSort, analyzeEmergingTrends]

end Syntegra

namespace Syntegra

open InsightGen

/-- The risk contribution of the sentiment finding as a function of the
negative-sentiment percentage: nothing at `≤ 50`, severity 2 on `(50, 70]`,
severity 3 above 70. -/
def sentRiskList (p : ℚ) : List ℕ :=
  if 50 < p then [if 70 < p then 3 else 2] else []

/-- The risk contribution of the KPI finding. -/
def kpiRiskList (kpi_data : List KpiSummaryRow) : List ℕ :=
  match kpiRiskSeverity kpi_data with
  | some s => [s]
  | none => []

/-- The sentiment finding's risk contribution depends only on the
negative-percentage thresholds. -/
theorem sentRisk_contribution (l : List TextSummaryRow)
    (hl : (sentimentsOf l).isEmpty = false) :
    (match analyzeSentimentPattern l with
     | some f => if f.is_risk then [f.severity] else []
     | none => []) = sentRiskList (negativePct (sentimentsOf l)) := by
  have hlne : l.isEmpty = false := by
    cases l with
    | nil => exact absurd hl (by simp [sentimentsOf])
    | cons a as => rfl
  rw [analyzeSentimentPattern, if_neg (by simp [hlne]), if_neg (by simp [hl])]
  unfold sentRiskList
  split_ifs <;> rfl

/-- The KPI finding's risk severity is absent, 2 or 3. -/
theorem kpiRiskSeverity_cases (kpi_data : List KpiSummaryRow) :
    kpiRiskSeverity kpi_data = none ∨ kpiRiskSeverity kpi_data = some 2 ∨
      kpiRiskSeverity kpi_data = some 3 := by
  unfold kpiRiskSeverity analyzeKpiTrend
  split_ifs with h
  · exact Or.inl rfl
  · cases hmg : mainGroup (groupKpis kpi_data) with
    | none => exact Or.inl rfl
    | some g =>
        obtain ⟨name, values⟩ := g
        simp only
        split_ifs <;>
          first
            | exact Or.inl rfl
            | exact Or.inr (Or.inl rfl)
            | exact Or.inr (Or.inr rfl)

/-- The KPI part of `risk_indicators` is `kpiRiskList`. -/
theorem kpiRisk_contribution (kpi_data : List KpiSummaryRow) :
    (match analyzeKpiTrend kpi_data with
     | some f => if f.is_risk then [f.severity] else []
     | none => []) = kpiRiskList kpi_data := by
  unfold kpiRiskList kpiRiskSeverity
  cases h : analyzeKpiTrend kpi_data with
  | none => rfl
  | some f =>
      simp only
      split_ifs with hr
      · rfl
      · rfl

/-- `risk_indicators`, rewritten by threshold bands. -/
theorem riskIndicators_eq (l : List TextSummaryRow) (kpi_data : List KpiSummaryRow)
    (hl : (sentimentsOf l).isEmpty = false) :
    riskIndicators l kpi_data =
      sentRiskList (negativePct (sentimentsOf l)) ++ kpiRiskList kpi_data := by
  unfold riskIndicators
  rw [sentRisk_contribution l hl, kpiRisk_contribution]

end Syntegra

namespace Syntegra

open InsightGen

/-- `_calculate_risk_level` on the empty indicator list. -/
theorem crl_nil : calculateRiskLevel [] = "low" := by
  simp [calculateRiskLevel]

/-- `_calculate_risk_level` on `[2]`. -/
theorem crl_two : calculateRiskLevel [2] = "medium" := by
  norm_num [calculateRiskLevel, List.sum_cons, List.sum_nil]

/-- `_calculate_risk_level` on `[3]`. -/
theorem crl_three : calculateRiskLevel [3] = "critical" := by
  norm_num [calculateRiskLevel, List.sum_cons, List.sum_nil]

/-- `_calculate_risk_level` on `[2, 2]`. -/
theorem crl_22 : calculateRiskLevel [2, 2] = "medium" := by
  norm_num [calculateRiskLevel, List.sum_cons, List.sum_nil]

/-- `_calculate_risk_level` on `[2, 3]`. -/
theorem crl_23 : calculateRiskLevel [2, 3] = "high" := by
  norm_num [calculateRiskLevel, List.sum_cons, List.sum_nil]

/-- `_calculate_risk_level` on `[3, 2]`. -/
theorem crl_32 : calculateRiskLevel [3, 2] = "high" := by
  norm_num [calculateRiskLevel, List.sum_cons, List.sum_nil]

/-- `_calculate_risk_level` on `[3, 3]`. -/
theorem crl_33 : calculateRiskLevel [3, 3] = "critical" := by
  norm_num [calculateRiskLevel, List.sum_cons, List.sum_nil]

/-- C5 (amended): holding the KPI rows (hence the KPI finding) fixed, the
insight risk level is monotone in the negative-sentiment percentage, except
in the one configuration where the KPI finding is a severity-3 risk, the
lower percentage is at most 50 and the higher lies in `(50, 70]` (there the
averaged severity drops from 3 to 2.5, taking the level from critical to
high). -/
theorem riskLevel_monotone_spec (l1 l2 : List TextSummaryRow) (kpi : List KpiSummaryRow)
    (h1 : (sentimentsOf l1).isEmpty = false) (h2 : (sentimentsOf l2).isEmpty = false)
    (hp : negativePct (sentimentsOf l1) ≤ negativePct (sentimentsOf l2))
    (hexc : ¬(kpiRiskSeverity kpi = some 3 ∧ negativePct (sentimentsOf l1) ≤ 50 ∧
      50 < negativePct (sentimentsOf l2) ∧ negativePct (sentimentsOf l2) ≤ 70)) :
    riskRank (riskLevelOf l1 kpi) ≤ riskRank (riskLevelOf l2 kpi) := by
  unfold riskLevelOf
  rw [riskIndicators_eq l1 kpi h1, riskIndicators_eq l2 kpi h2]
  set p1 := negativePct (sentimentsOf l1) with hp1
  set p2 := negativePct (sentimentsOf l2) with hp2
  rcases kpiRiskSeverity_cases kpi with hk | hk | hk
  · have hkl : kpiRiskList kpi = [] := by rw [kpiRiskList, hk]
    by_cases h50b : 50 < p2
    · by_cases h70b : 70 < p2
      · by_cases h50a : 50 < p1
        · by_cases h70a : 70 < p1
          · rw [hkl]; unfold sentRiskList
            rw [if_pos h50a, if_pos h70a, if_pos h50b, if_pos h70b]
          · rw [hkl]; unfold sentRiskList
            rw [if_pos h50a, if_neg h70a, if_pos h50b, if_pos h70b]
            simp only [List.append_nil]
            rw [crl_two, crl_three]; decide
        · rw [hkl]; unfold sentRiskList
          rw [if_neg h50a, if_pos h50b, if_pos h70b]
          simp [crl_nil, crl_two, crl_three, crl_22, crl_23, crl_32, crl_33, riskRank]
      · by_cases h50a : 50 < p1
        · have h70a : ¬70 < p1 := by push_neg at h70b ⊢; linarith
          rw [hkl]; unfold sentRiskList
          rw [if_pos h50a, if_neg h70a, if_pos h50b, if_neg h70b]
        · rw [hkl]; unfold sentRiskList
          rw [if_neg h50a, if_pos h50b, if_neg h70b]
          simp [crl_nil, crl_two, crl_three, crl_22, crl_23, crl_32, crl_33, riskRank]
    · have h50a : ¬50 < p1 := by push_neg at h50b ⊢; linarith
      rw [hkl]; unfold sentRiskList
      rw [if_neg h50a, if_neg h50b]
  · have hkl : kpiRiskList kpi = [2] := by rw [kpiRiskList, hk]
    by_cases h50b : 50 < p2
    · by_cases h70b : 70 < p2
      · by_cases h50a : 50 < p1
        · by_cases h70a : 70 < p1
          · rw [hkl]; unfold sentRiskList
            rw [if_pos h50a, if_pos h70a, if_pos h50b, if_pos h70b]
          · rw [hkl]; unfold sentRiskList
            rw [if_pos h50a, if_neg h70a, if_pos h50b, if_pos h70b]
            simp [crl_nil, crl_two, crl_three, crl_22, crl_23, crl_32, crl_33, riskRank]
        · rw [hkl]; unfold sentRiskList
          rw [if_neg h50a, if_pos h50b, if_pos h70b]
          simp [crl_nil, crl_two, crl_three, crl_22, crl_23, crl_32, crl_33, riskRank]
      · by_cases h50a : 50 < p1
        · have h70a : ¬70 < p1 := by push_neg at h70b ⊢; linarith
          rw [hkl]; unfold sentRiskList
          rw [if_pos h50a, if_neg h70a, if_pos h50b, if_neg h70b]
        · rw [hkl]; unfold sentRiskList
          rw [if_neg h50a, if_pos h50b, if_neg h70b]
          simp [crl_nil, crl_two, crl_three, crl_22, crl_23, crl_32, crl_33, riskRank]
    · have h50a : ¬50 < p1 := by push_neg at h50b ⊢; linarith
      rw [hkl]; unfold sentRiskList
      rw [if_neg h50a, if_neg h50b]
  · have hkl : kpiRiskList kpi = [3] := by rw [kpiRiskList, hk]
    by_cases h50b : 50 < p2
    · by_cases h70b : 70 < p2
      · by_cases h50a : 50 < p1
        · by_cases h70a : 70 < p1
          · rw [hkl]; unfold sentRiskList
            rw [if_pos h50a, if_pos h70a, if_pos h50b, if_pos h70b]
          · rw [hkl]; unfold sentRiskList
            rw [if_pos h50a, if_neg h70a, if_pos h50b, if_pos h70b]
            simp [crl_nil, crl_two, crl_three, crl_22, crl_23, crl_32, crl_33, riskRank]
        · rw [hkl]; unfold sentRiskList
          rw [if_neg h50a, if_pos h50b, if_pos h70b]
          simp [crl_nil, crl_two, crl_three, crl_22, crl_23, crl_32, crl_33, riskRank]
      · by_cases h50a : 50 < p1
        · have h70a : ¬70 < p1 := by push_neg at h70b ⊢; linarith
          rw [hkl]; unfold sentRiskList
          rw [if_pos h50a, if_neg h70a, if_pos h50b, if_neg h70b]
        · exact absurd ⟨hk, by push_neg at h50a; exact h50a, h50b,
            by push_neg at h70b; exact h70b⟩ hexc
    · have h50a : ¬50 < p1 := by push_neg at h50b ⊢; linarith
      rw [hkl]; unfold sentRiskList
      rw [if_neg h50a, if_neg h50b]

end Syntegra

namespace Syntegra

open InsightGen

/-- Five pulled text rows, 40% negative. -/
def textRows40 : List TextSummaryRow :=
  [⟨some "negative"⟩, ⟨some "negative"⟩, ⟨some "positive"⟩,
   ⟨some "positive"⟩, ⟨some "positive"⟩]

/-- Five pulled text rows, 60% negative. -/
def textRows60 : List TextSummaryRow :=
  [⟨some "negative"⟩, ⟨some "negative"⟩, ⟨some "negative"⟩,
   ⟨some "positive"⟩, ⟨some "positive"⟩]

/-- Five pulled text rows, 80% negative. -/
def textRows80 : List TextSummaryRow :=
  [⟨some "negative"⟩, ⟨some "negative"⟩, ⟨some "negative"⟩,
   ⟨some "negative"⟩, ⟨some "positive"⟩]

/-- Three KPI rows (most recent first) whose latest value sits 100% below the
mean: a severity-3 KPI risk finding. -/
def kpiRowsDrop : List KpiSummaryRow :=
  [⟨"ventas", 0⟩, ⟨"ventas", 100⟩, ⟨"ventas", 100⟩]

/-- C5 counterexample: with the KPI finding fixed at a severity-3 risk,
raising the negative-sentiment share from 40% to 60% *lowers* the computed
risk level from critical to high, refuting unrestricted monotonicity. -/
theorem riskLevel_monotone_counterexample :
    negativePct (sentimentsOf textRows40) = 40 ∧
    negativePct (sentimentsOf textRows60) = 60 ∧
    riskLevelOf textRows40 kpiRowsDrop = "critical" ∧
    riskLevelOf textRows60 kpiRowsDrop = "high" ∧
    riskRank "high" < riskRank "critical" := by
  refine ⟨?_, ?_, ?_, ?_, by decide⟩
  · norm_num +decide [textRows40, sentimentsOf, negativePct, List.filterMap, List.count_cons]
  · norm_num +decide [textRows60, sentimentsOf, negativePct, List.filterMap, List.count_cons]
  · norm_num +decide [textRows40, kpiRowsDrop, riskLevelOf, riskIndicators,
      analyzeSentimentPattern, analyzeKpiTrend, sentimentsOf, negativePct, positivePct,
      groupKpis, addToGroups, mainGroup, changePct, calculateRiskLevel,
      List.filterMap, List.count_cons, List.sum_cons, List.sum_nil]
  · norm_num +decide [textRows60, kpiRowsDrop, riskLevelOf, riskIndicators,
      analyzeSentimentPattern, analyzeKpiTrend, sentimentsOf, negativePct, positivePct,
      groupKpis, addToGroups, mainGroup, changePct, calculateRiskLevel,
      List.filterMap, List.count_cons, List.sum_cons, List.sum_nil]

/-- C5 witness: the claim's own instance (40% against 80% negative) does
satisfy monotonicity, via `riskLevel_monotone_spec`. -/
theorem riskLevel_monotone_spec_witness :
    riskRank (riskLevelOf textRows40 kpiRowsDrop) ≤
      riskRank (riskLevelOf textRows80 kpiRowsDrop) :=
  riskLevel_monotone_spec textRows40 textRows80 kpiRowsDrop
    (by decide)
    (by decide)
    (by norm_num +decide [textRows40, textRows80, sentimentsOf, negativePct,
      List.filterMap, List.count_cons])
    (fun hcon => absurd hcon.2.2.2 (by
      norm_num +decide [textRows80, sentimentsOf, negativePct, List.filterMap, List.count_cons]))

end Syntegra

namespace Syntegra

/-! ## Anomaly detector (`app/services/anomaly_detection.py`)

The isolation-forest scores and flags themselves come from scikit-learn and
are treated as inputs; the embedded part is the severity banding
(`_calculate_severity`) and the severity distribution of
`detect_anomalies_isolation_forest`. -/

namespace Anomaly

/-- The fractional rank `(n - 1) * p / 100` used by `np.percentile`. -/
def pRank (n : ℕ) (p : ℚ) : ℚ := ((n : ℚ) - 1) * p / 100

/-- Linear interpolation of a sorted vector at fractional rank `h`:
`s[floor h] + (h - floor h) * (s[floor h + 1] - s[floor h])`, reading past
the end as the last value. -/
def interpAt (s : List ℚ) (h : ℚ) : ℚ :=
  s.getD (⌊h⌋).toNat 0 +
    (h - (⌊h⌋ : ℚ)) *
      (s.getD ((⌊h⌋).toNat + 1) (s.getD (⌊h⌋).toNat 0) - s.getD (⌊h⌋).toNat 0)

/-- `np.percentile(scores, p)` with the default linear interpolation. -/
def percentile (scores : List ℚ) (p : ℚ) : ℚ :=
  interpAt (List.insertionSort (· ≤ ·) scores)
    (pRank (List.insertionSort (· ≤ ·) scores).length p)

/-- The banding chain of `_calculate_severity` for one score, given the three
quartile thresholds. -/
def severityOf (p25 p50 p75 score : ℚ) : String :=
  if score ≤ p25 then "critical"
  else if score ≤ p50 then "high"
  else if score ≤ p75 then "medium"
  else "low"

/-- `AnomalyDetector._calculate_severity`: every row is banded against the
quartiles of the whole score vector. -/
def calculateSeverity (scores : List ℚ) : List String :=
  scores.map (severityOf (percentile scores 25) (percentile scores 50) (percentile scores 75))

/-- The severities of the flagged rows only:
`results_df[results_df['is_anomaly']]['anomaly_severity']`. -/
def flaggedSeverities (scores : List ℚ) (flags : List Bool) : List String :=
  ((calculateSeverity scores).zip flags).filterMap
    fun pr => if pr.2 then some pr.1 else none

/-- The `severity_distribution` entry of the isolation-forest report, packed
as (critical, high, medium, low) counts. -/
def severityDistribution (scores : List ℚ) (flags : List Bool) : ℕ × ℕ × ℕ × ℕ :=
  ((flaggedSeverities scores flags).count "critical",
   (flaggedSeverities scores flags).count "high",
   (flaggedSeverities scores flags).count "medium",
   (flaggedSeverities scores flags).count "low")

end Anomaly

end Syntegra

namespace Syntegra

open Anomaly

/-- The severity banding chain, characterised (for ordered quartile
thresholds, as produced by `np.percentile`). -/
theorem severityOf_spec (p25 p50 p75 d : ℚ) (hpq : p25 ≤ p50) (hqr : p50 ≤ p75) :
    (severityOf p25 p50 p75 d = "critical" ↔ d ≤ p25) ∧
    (severityOf p25 p50 p75 d = "high" ↔ (p25 < d ∧ d ≤ p50)) ∧
    (severityOf p25 p50 p75 d = "medium" ↔ (p50 < d ∧ d ≤ p75)) ∧
    (severityOf p25 p50 p75 d = "low" ↔ p75 < d) := by
  unfold severityOf
  split_ifs with hc hh hm
  · exact ⟨⟨fun _ => hc, fun _ => rfl⟩,
      ⟨fun hcon => absurd hcon (by decide), fun hx => absurd hc (by push_neg; exact hx.1)⟩,
      ⟨fun hcon => absurd hcon (by decide), fun hx => absurd hc (by push_neg; linarith [hx.1])⟩,
      ⟨fun hcon => absurd hcon (by decide), fun hx => absurd hc (by push_neg; linarith)⟩⟩
  · push_neg at hc
    exact ⟨⟨fun hcon => absurd hcon (by decide), fun hx => absurd hx (by linarith)⟩,
      ⟨fun _ => ⟨hc, hh⟩, fun _ => rfl⟩,
      ⟨fun hcon => absurd hcon (by decide), fun hx => absurd hh (by push_neg; exact hx.1)⟩,
      ⟨fun hcon => absurd hcon (by decide), fun hx => absurd hh (by push_neg; linarith)⟩⟩
  · push_neg at hc hh
    exact ⟨⟨fun hcon => absurd hcon (by decide), fun hx => absurd hx (by linarith)⟩,
      ⟨fun hcon => absurd hcon (by decide), fun hx => absurd hx.2 (by push_neg; exact hh)⟩,
      ⟨fun _ => ⟨hh, hm⟩, fun _ => rfl⟩,
      ⟨fun hcon => absurd hcon (by decide), fun hx => absurd hm (by push_neg; linarith)⟩⟩
  · push_neg at hc hh hm
    exact ⟨⟨fun hcon => absurd hcon (by decide), fun hx => absurd hx (by linarith)⟩,
      ⟨fun hcon => absurd hcon (by decide), fun hx => absurd hx.2 (by push_neg; linarith)⟩,
      ⟨fun hcon => absurd hcon (by decide), fun hx => absurd hx.2 (by push_neg; exact hm)⟩,
      ⟨fun _ => hm, fun _ => rfl⟩⟩

/-- Counting one band among the flagged rows, as a predicate count over the
(score, flag) pairs. -/
theorem count_filterMap_zip (f : ℚ → String) (xs : List ℚ) (flags : List Bool)
    (target : String) :
    (((xs.map f).zip flags).filterMap fun pr => if pr.2 then some pr.1 else none).count target
      = (xs.zip flags).countP fun q => q.2 && (f q.1 == target) := by
  induction xs generalizing flags with
  | nil => simp
  | cons a as ih =>
      cases flags with
      | nil => simp
      | cons b bs =>
          cases b with
          | false => simp [ih bs, List.count_cons, List.countP_cons]
          | true => simp [ih bs, List.count_cons, List.countP_cons]

end Syntegra

namespace Syntegra

open Anomaly

/-- In a sorted vector, `getD` at a smaller in-range index is no larger. -/
theorem sorted_getD_le (s : List ℚ) (hs : s.Pairwise (· ≤ ·)) {i j : ℕ}
    (hij : i ≤ j) (hj : j < s.length) : s.getD i 0 ≤ s.getD j 0 := by
  have hi : i < s.length := lt_of_le_of_lt hij hj
  rw [List.getD_eq_getElem s 0 hi, List.getD_eq_getElem s 0 hj]
  rcases Nat.lt_or_ge i j with hlt | hge
  · exact List.pairwise_iff_getElem.mp hs i j hi hj hlt
  · have : i = j := le_antisymm hij hge
    subst this
    exact le_refl _

/-- Linear interpolation over a sorted vector is monotone in the fractional
rank, within the valid range. -/
theorem interpAt_mono (s : List ℚ) (hs : s.Pairwise (· ≤ ·)) {h1 h2 : ℚ}
    (h01 : 0 ≤ h1) (h12 : h1 ≤ h2) (h2n : h2 ≤ (s.length : ℚ) - 1) :
    interpAt s h1 ≤ interpAt s h2 := by
  have hn : 1 ≤ s.length := by
    by_contra hcon
    have hz : s.length = 0 := by omega
    rw [hz] at h2n
    norm_num at h2n
    linarith
  have hf1 : (0 : ℤ) ≤ ⌊h1⌋ := Int.floor_nonneg.mpr h01
  have hf2 : (0 : ℤ) ≤ ⌊h2⌋ := le_trans hf1 (Int.floor_le_floor h12)
  have hle : ⌊h1⌋ ≤ ⌊h2⌋ := Int.floor_le_floor h12
  have hfn : ⌊h2⌋ ≤ (s.length : ℤ) - 1 := by
    have := Int.floor_le_floor h2n
    rwa [show ((s.length : ℚ) - 1) = (((s.length : ℤ) - 1 : ℤ) : ℚ) by push_cast; ring,
      Int.floor_intCast] at this
  set i1 := (⌊h1⌋).toNat with hi1def
  set i2 := (⌊h2⌋).toNat with hi2def
  have hi1z : (i1 : ℤ) = ⌊h1⌋ := Int.toNat_of_nonneg hf1
  have hi2z : (i2 : ℤ) = ⌊h2⌋ := Int.toNat_of_nonneg hf2
  have hi12 : i1 ≤ i2 := by omega
  have hi2n : i2 < s.length := by omega
  have hfr1a : (0 : ℚ) ≤ h1 - (⌊h1⌋ : ℚ) := by
    have := Int.floor_le h1
    linarith
  have hfr1b : h1 - (⌊h1⌋ : ℚ) < 1 := by
    have := Int.lt_floor_add_one h1
    linarith
  have hfr2a : (0 : ℚ) ≤ h2 - (⌊h2⌋ : ℚ) := by
    have := Int.floor_le h2
    linarith
  have getD_irrel : ∀ {n : ℕ}, n < s.length → ∀ d : ℚ, s.getD n d = s.getD n 0 := by
    intro n hlt d
    rw [List.getD_eq_getElem s d hlt, List.getD_eq_getElem s 0 hlt]
  unfold interpAt
  rw [← hi1def, ← hi2def]
  rcases Nat.lt_or_ge i1 i2 with hlt | hge
  · -- h1's cell lies strictly left of h2's cell
    have hi1n : i1 < s.length := lt_trans hlt hi2n
    have hi1r : i1 + 1 ≤ i2 := hlt
    have hrange : i1 + 1 < s.length := lt_of_le_of_lt hi1r hi2n
    have hcell1 : s.getD i1 0 ≤ s.getD (i1 + 1) (s.getD i1 0) := by
      rw [getD_irrel hrange]
      exact sorted_getD_le s hs (Nat.le_succ i1) hrange
    have hcell2 : s.getD (i1 + 1) (s.getD i1 0) ≤ s.getD i2 0 := by
      rw [getD_irrel hrange]
      exact sorted_getD_le s hs hi1r hi2n
    have hcell3 : s.getD i2 0 ≤ s.getD (i2 + 1) (s.getD i2 0) := by
      rcases Nat.lt_or_ge (i2 + 1) s.length with hlt2 | hge2
      · rw [getD_irrel hlt2]
        exact sorted_getD_le s hs (Nat.le_succ i2) hlt2
      · rw [List.getD_eq_default s _ hge2]
    nlinarith [hcell1, hcell2, hcell3, hfr1a, hfr1b, hfr2a]
  · -- same cell: only the fractional part grows
    have heq : i1 = i2 := le_antisymm hi12 hge
    have hfeq : ⌊h1⌋ = ⌊h2⌋ := by omega
    have hcell : s.getD i2 0 ≤ s.getD (i2 + 1) (s.getD i2 0) := by
      rcases Nat.lt_or_ge (i2 + 1) s.length with hlt2 | hge2
      · rw [getD_irrel hlt2]
        exact sorted_getD_le s hs (Nat.le_succ i2) hlt2
      · rw [List.getD_eq_default s _ hge2]
    have hcast : (⌊h1⌋ : ℚ) = (⌊h2⌋ : ℚ) := by exact_mod_cast hfeq
    rw [heq, hfeq]
    nlinarith [hcell, hfr1a, hcast, h12]

/-- The three quartile thresholds of `_calculate_severity` are ordered. -/
theorem percentile_quartiles_ordered (scores : List ℚ) :
    percentile scores 25 ≤ percentile scores 50 ∧
    percentile scores 50 ≤ percentile scores 75 := by
  by_cases hnil : scores = []
  · subst hnil
    norm_num [percentile, interpAt, pRank, List.insertionSort]
  · have hlen : 1 ≤ (List.insertionSort (· ≤ ·) scores).length := by
      rw [List.length_insertionSort]
      have := List.length_pos.mpr hnil
      omega
    have hs : (List.insertionSort (· ≤ ·) scores).Pairwise ((· ≤ ·) : ℚ → ℚ → Prop) :=
      List.sorted_insertionSort _ scores
    have hq : (0 : ℚ) ≤ ((List.insertionSort (· ≤ ·) scores).length : ℚ) - 1 := by
      have : (1 : ℚ) ≤ ((List.insertionSort (· ≤ ·) scores).length : ℚ) := by
        exact_mod_cast hlen
      linarith
    constructor
    · apply interpAt_mono _ hs
      · unfold pRank; positivity
      · unfold pRank; nlinarith
      · unfold pRank; nlinarith
    · apply interpAt_mono _ hs
      · unfold pRank; positivity
      · unfold pRank; nlinarith
      · unfold pRank; nlinarith

end Syntegra

namespace Syntegra

open Anomaly

/-- C8: severity bands come from the quartiles of ALL scores (which are
ordered): a row is `"critical"` iff its score is at or below the 25th
percentile, `"high"` iff above that but at or below the 50th, `"medium"`
iff above that but at or below the 75th, `"low"` iff above the 75th; and
each `severity_distribution` entry counts exactly the flagged rows of its
band. -/
theorem severity_banding_spec (scores : List ℚ) (flags : List Bool) :
    (percentile scores 25 ≤ percentile scores 50 ∧
     percentile scores 50 ≤ percentile scores 75) ∧
    (∀ pr ∈ scores.zip (calculateSeverity scores),
       (pr.2 = "critical" ↔ pr.1 ≤ percentile scores 25) ∧
       (pr.2 = "high" ↔ (percentile scores 25 < pr.1 ∧ pr.1 ≤ percentile scores 50)) ∧
       (pr.2 = "medium" ↔ (percentile scores 50 < pr.1 ∧ pr.1 ≤ percentile scores 75)) ∧
       (pr.2 = "low" ↔ percentile scores 75 < pr.1)) ∧
    (severityDistribution scores flags).1 =
      (scores.zip flags).countP (fun q => q.2 && decide (q.1 ≤ percentile scores 25)) ∧
    (severityDistribution scores flags).2.1 =
      (scores.zip flags).countP (fun q => q.2 &&
        (decide (percentile scores 25 < q.1) && decide (q.1 ≤ percentile scores 50))) ∧
    (severityDistribution scores flags).2.2.1 =
      (scores.zip flags).countP (fun q => q.2 &&
        (decide (percentile scores 50 < q.1) && decide (q.1 ≤ percentile scores 75))) ∧
    (severityDistribution scores flags).2.2.2 =
      (scores.zip flags).countP (fun q => q.2 && decide (percentile scores 75 < q.1)) := by
  obtain ⟨hAB, hBC⟩ := percentile_quartiles_ordered scores
  have hzip : scores.zip (calculateSeverity scores) =
      scores.map (fun a => (a, severityOf (percentile scores 25) (percentile scores 50)
        (percentile scores 75) a)) := by
    unfold calculateSeverity
    calc scores.zip (scores.map (severityOf (percentile scores 25) (percentile scores 50)
          (percentile scores 75)))
        = (scores.map id).zip (scores.map (severityOf (percentile scores 25)
            (percentile scores 50) (percentile scores 75))) := by rw [List.map_id]
      _ = _ := List.zip_map' id _ scores
  refine ⟨⟨hAB, hBC⟩, ?_, ?_, ?_, ?_, ?_⟩
  · intro pr hpr
    rw [hzip] at hpr
    obtain ⟨a, -, rfl⟩ := List.mem_map.mp hpr
    exact severityOf_spec _ _ _ a hAB hBC
  all_goals {
    show (flaggedSeverities scores flags).count _ = _
    unfold flaggedSeverities calculateSeverity
    rw [count_filterMap_zip]
    apply List.countP_congr
    intro x _
    constructor
    · intro hx
      rcases Bool.and_eq_true _ _ |>.mp hx with ⟨hx1, hx2⟩
      rw [hx1, Bool.true_and]
      have hsev := beq_iff_eq.mp hx2
      first
        | (rw [decide_eq_true_eq]
           exact ((severityOf_spec _ _ _ x.1 hAB hBC).1).mp hsev)
        | (obtain ⟨hgt, hle⟩ := ((severityOf_spec _ _ _ x.1 hAB hBC).2.1).mp hsev
           rw [Bool.and_eq_true, decide_eq_true_eq, decide_eq_true_eq]
           exact ⟨hgt, hle⟩)
        | (obtain ⟨hgt, hle⟩ := ((severityOf_spec _ _ _ x.1 hAB hBC).2.2.1).mp hsev
           rw [Bool.and_eq_true, decide_eq_true_eq, decide_eq_true_eq]
           exact ⟨hgt, hle⟩)
        | (rw [decide_eq_true_eq]
           exact ((severityOf_spec _ _ _ x.1 hAB hBC).2.2.2).mp hsev)
    · intro hx
      rcases Bool.and_eq_true _ _ |>.mp hx with ⟨hx1, hx2⟩
      rw [hx1, Bool.true_and]
      rw [beq_iff_eq]
      first
        | (rw [decide_eq_true_eq] at hx2
           exact ((severityOf_spec _ _ _ x.1 hAB hBC).1).mpr hx2)
        | (rw [Bool.and_eq_true, decide_eq_true_eq, decide_eq_true_eq] at hx2
           exact ((severityOf_spec _ _ _ x.1 hAB hBC).2.1).mpr hx2)
        | (rw [Bool.and_eq_true, decide_eq_true_eq, decide_eq_true_eq] at hx2
           exact ((severityOf_spec _ _ _ x.1 hAB hBC).2.2.1).mpr hx2)
        | (rw [decide_eq_true_eq] at hx2
           exact ((severityOf_spec _ _ _ x.1 hAB hBC).2.2.2).mpr hx2)
  }

end Syntegra

namespace Syntegra

/-! ## KPI engine (`app/data_insights/kpi_engine.py`) -/

namespace KpiEngine

/-- A JSON scalar stored in a `processed_data` row's `data` field.  `jstrNum`
is a string that parses as a number (so `pd.to_numeric` coerces it), `jstr`
one that does not (coerced to NaN). -/
inductive JVal where
  | jnum (q : ℚ)
  | jstrNum (q : ℚ)
  | jstr (s : String)
deriving DecidableEq, Repr

/-- A timestamp abstracted as calendar month plus position inside the month,
ordered lexicographically; `dt.to_period('M')` reads the month. -/
structure PDate where
  month : ℤ
  day : ℕ
deriving DecidableEq, Repr

/-- Order on abstracted timestamps. -/
def pdLE (a b : PDate) : Prop :=
  a.month < b.month ∨ (a.month = b.month ∧ a.day ≤ b.day)

instance pdLE_dec : ∀ a b : PDate, Decidable (pdLE a b) :=
  fun _ _ => inferInstanceAs (Decidable (_ ∨ _))

/-- A row of `processed_data` as consumed by `compute_kpis_for_client`.  The
base fields and the JSON payload are kept apart (the Python code merges them
into one record dict; JSON keys shadowing `id`/`source_type`/`created_at`
are out of scope of this model). -/
structure PRow where
  id : ℕ
  source_type : String
  data : List (String × JVal)
  created_at : PDate
deriving DecidableEq, Repr

/-- `ORDER BY created_at` (ascending). -/
def rowLE (a b : PRow) : Prop := pdLE a.created_at b.created_at

instance : DecidableRel rowLE := fun _ _ => pdLE_dec _ _

instance : IsTotal PRow rowLE := by
  constructor
  intro a b
  unfold rowLE pdLE
  rcases lt_trichotomy a.created_at.month b.created_at.month with h | h | h
  · exact Or.inl (Or.inl h)
  · rcases Nat.le_total a.created_at.day b.created_at.day with hd | hd
    · exact Or.inl (Or.inr ⟨h, hd⟩)
    · exact Or.inr (Or.inr ⟨h.symm, hd⟩)
  · exact Or.inr (Or.inl h)

instance : IsTrans PRow rowLE := by
  constructor
  intro a b c hab hbc
  unfold rowLE pdLE at *
  rcases hab with h1 | ⟨h1, hd1⟩ <;> rcases hbc with h2 | ⟨h2, hd2⟩
  · exact Or.inl (lt_trans h1 h2)
  · exact Or.inl (h2 ▸ h1)
  · exact Or.inl (h1 ▸ h2)
  · exact Or.inr ⟨h1.trans h2, le_trans hd1 hd2⟩

/-- The `processed_data` range query of `compute_kpis_for_client`: filter by
`created_at` between the period bounds (never by client), order by
`created_at`. -/
def queryRows (table : List PRow) (ps pe : PDate) : List PRow :=
  List.insertionSort rowLE
    (table.filter fun r => decide (pdLE ps r.created_at) && decide (pdLE r.created_at pe))

/-- A computed KPI value: a float, a string (`top{i}_item`), a standard
deviation represented as the square root of its (rational) variance, or
pandas NaN. -/
inductive KpiValue where
  | num (q : ℚ)
  | str (s : String)
  | sqrtv (q : ℚ)
  | nan
deriving DecidableEq, Repr

/-- Python-dict insertion: overwrite in place, else append. -/
def dictInsert (k : String) (v : KpiValue) :
    List (String × KpiValue) → List (String × KpiValue)
  | [] => [(k, v)]
  | (k', v') :: rest =>
      if k' = k then (k, v) :: rest else (k', v') :: dictInsert k v rest

/-- Python-dict lookup. -/
def dictGet (k : String) : List (String × KpiValue) → Option KpiValue
  | [] => none
  | (k', v') :: rest => if k' = k then some v' else dictGet k rest

/-- Deduplicate keeping first occurrences (pandas column order, Python dict
key order). -/
def firstDedup {α : Type} [DecidableEq α] : List α → List α :=
  go []
where
  go (seen : List α) : List α → List α
    | [] => []
    | x :: xs => if x ∈ seen then go seen xs else x :: go (x :: seen) xs

/-- `pd.to_numeric(value, errors='coerce')`. -/
def toNumeric : JVal → Option ℚ
  | .jnum q => some q
  | .jstrNum q => some q
  | .jstr _ => none

/-- The JSON value of row `r` in column `c` (pandas NaN when absent). -/
def lookupJ (r : PRow) (c : String) : Option JVal := r.data.lookup c

/-- `c in df.columns`, for JSON-payload columns. -/
def colPresent (rows : List PRow) (c : String) : Bool :=
  rows.any fun r => (lookupJ r c).isSome

/-- The fixed ordered candidate list for the amount-like column. -/
def SALES_COLUMNS : List String := ["amount", "sales", "value", "total", "price"]

/-- The fixed ordered candidate list for the item-like column. -/
def ITEM_COLUMNS : List String := ["item", "product", "product_name", "name"]

/-- First present candidate column (`for col in ...: if col in df.columns`). -/
def firstPresent (rows : List PRow) (cands : List String) : Option String :=
  cands.find? (colPresent rows)

/-- `sales_col`. -/
def salesCol (rows : List PRow) : Option String := firstPresent rows SALES_COLUMNS

/-- `item_col`. -/
def itemCol (rows : List PRow) : Option String := firstPresent rows ITEM_COLUMNS

/-- The numeric (non-NaN) values of a column, in row order — what pandas
reductions with `skipna` see. -/
def numsOf (rows : List PRow) (c : String) : List ℚ :=
  rows.filterMap fun r => (lookupJ r c).bind toNumeric

/-- `series.mean()`: NaN on an all-NaN column. -/
def meanVal (vs : List ℚ) : KpiValue :=
  if vs.isEmpty then .nan else .num (vs.sum / (vs.length : ℚ))

/-- `series.max()`. -/
def maxVal (vs : List ℚ) : KpiValue :=
  match vs.max? with
  | some m => .num m
  | none => .nan

/-- `series.min()`. -/
def minVal (vs : List ℚ) : KpiValue :=
  match vs.min? with
  | some m => .num m
  | none => .nan

/-- `series.median()`. -/
def medianVal (vs : List ℚ) : KpiValue :=
  if vs.isEmpty then .nan
  else
    if vs.length % 2 = 1 then
      .num ((List.insertionSort (· ≤ ·) vs).getD (vs.length / 2) 0)
    else
      .num (((List.insertionSort (· ≤ ·) vs).getD (vs.length / 2 - 1) 0 +
        (List.insertionSort (· ≤ ·) vs).getD (vs.length / 2) 0) / 2)

/-- `series.std()` (sample standard deviation, `ddof=1`): NaN below two
values, else the square root of the rational sample variance. -/
def stdVal (vs : List ℚ) : KpiValue :=
  if vs.length < 2 then .nan
  else
    .sqrtv ((vs.map fun x => (x - vs.sum / (vs.length : ℚ)) ^ 2).sum /
      ((vs.length : ℚ) - 1))

end KpiEngine

end Syntegra

namespace Syntegra

namespace KpiEngine

/-- JSON-payload column names in first-appearance order (the DataFrame's
column order, after the base fields). -/
def jsonCols (rows : List PRow) : List String :=
  firstDedup ((rows.map fun r => r.data.map Prod.fst).flatten)

/-- KPI 2: total/avg/max/min of the amount-like column (after numeric
coercion), when one exists. -/
def addSalesKpis (rows : List PRow) (d : List (String × KpiValue)) :
    List (String × KpiValue) :=
  match salesCol rows with
  | none => d
  | some c =>
      dictInsert "min_transaction" (minVal (numsOf rows c))
        (dictInsert "max_transaction" (maxVal (numsOf rows c))
          (dictInsert "avg_ticket" (meanVal (numsOf rows c))
            (dictInsert "total_sales" (.num (numsOf rows c).sum) d)))

/-- KPI 3: one `count_{source}` entry per distinct `source_type`.
`value_counts()` iterates by descending count; since the keys are distinct
the resulting mapping does not depend on that order, and first-appearance
order is used here. -/
def addSourceCounts (rows : List PRow) (d : List (String × KpiValue)) :
    List (String × KpiValue) :=
  (firstDedup (rows.map fun r => r.source_type)).foldl
    (fun d s =>
      dictInsert ("count_" ++ s)
        (.num (rows.countP fun r => r.source_type = s)) d) d

/-- The distinct months of the period's rows, ascending (`groupby` sorts its
keys). -/
def monthsOf (rows : List PRow) : List ℤ :=
  List.insertionSort (· ≤ ·) ((rows.map fun r => r.created_at.month).dedup)

/-- One month's sum of the (coerced) amount column, NaNs skipped. -/
def monthSum (rows : List PRow) (c : String) (m : ℤ) : ℚ :=
  (numsOf (rows.filter fun r => r.created_at.month = m) c).sum

/-- `monthly_sales.iloc[-1]`'s month. -/
def latestMonth (rows : List PRow) : Option ℤ := (monthsOf rows).getLast?

/-- `monthly_sales.iloc[-2]`'s month. -/
def prevMonth (rows : List PRow) : Option ℤ := (monthsOf rows).dropLast.getLast?

/-- KPI 4: month-over-month growth, emitted when an amount-like column
exists, at least two distinct months are present, and the previous month's
sum is strictly positive (`if previous_month > 0`). -/
def addSalesMom (rows : List PRow) (d : List (String × KpiValue)) :
    List (String × KpiValue) :=
  match salesCol rows with
  | none => d
  | some c =>
      match latestMonth rows, prevMonth rows with
      | some mL, some mP =>
          if 0 < monthSum rows c mP then
            dictInsert "sales_mom"
              (.num (((monthSum rows c mL - monthSum rows c mP) /
                monthSum rows c mP) * 100)) d
          else d
      | _, _ => d

/-- `str(item)` for a JSON value. -/
def jvalStr : JVal → String
  | .jnum q => toString q
  | .jstrNum q => toString q
  | .jstr s => s

/-- The item column's values (rows missing the key are dropped, as
`value_counts` drops NaN). -/
def itemVals (rows : List PRow) (c : String) : List JVal :=
  rows.filterMap fun r => lookupJ r c

/-- `value_counts().head(3)`: the three most frequent item values with their
counts. -/
def top3 (rows : List PRow) (c : String) : List (JVal × ℕ) :=
  ((@List.insertionSort JVal
      (fun a b => (itemVals rows c).count b ≤ (itemVals rows c).count a)
      (fun _ _ => Nat.decLe _ _)
      (firstDedup (itemVals rows c))).take 3).map
    fun v => (v, (itemVals rows c).count v)

/-- The `top{i}_item` / `top{i}_count` entries, `i` counting from 1. -/
def addItemEntries : ℕ → List (JVal × ℕ) → List (String × KpiValue) →
    List (String × KpiValue)
  | _, [], d => d
  | i, (v, cnt) :: rest, d =>
      addItemEntries (i + 1) rest
        (dictInsert ("top" ++ toString i ++ "_count") (.num cnt)
          (dictInsert ("top" ++ toString i ++ "_item") (.str (jvalStr v)) d))

/-- KPI 5: top-3 items and their combined share of all records. -/
def addItemKpis (rows : List PRow) (d : List (String × KpiValue)) :
    List (String × KpiValue) :=
  match itemCol rows with
  | none => d
  | some c =>
      addItemEntries 1 (top3 rows c)
        (dictInsert "items_top3_share"
          (.num (if 0 < rows.length then
            (((top3 rows c).map Prod.snd).sum : ℚ) / (rows.length : ℚ) * 100
          else 0)) d)

/-- A column's pandas dtype is numeric when every present value is a JSON
number. -/
def numericDtype (rows : List PRow) (c : String) : Bool :=
  rows.all fun r =>
    match lookupJ r c with
    | none => true
    | some (.jnum _) => true
    | some _ => false

/-- `df.select_dtypes(include=[np.number]).columns` among the JSON columns:
numeric-dtype columns plus the explicitly coerced amount column (`id` is
skipped by the code; `created_at`, `source_type` and `month` are not
numeric dtypes). -/
def numericCols (rows : List PRow) : List String :=
  (jsonCols rows).filter fun c => numericDtype rows c || salesCol rows == some c

/-- KPI 6: mean/median/std per numeric column. -/
def addNumericStats (rows : List PRow) (d : List (String × KpiValue)) :
    List (String × KpiValue) :=
  (numericCols rows).foldl
    (fun d c =>
      dictInsert (c ++ "_std") (stdVal (numsOf rows c))
        (dictInsert (c ++ "_median") (medianVal (numsOf rows c))
          (dictInsert (c ++ "_mean") (meanVal (numsOf rows c)) d))) d

/-- KPI blocks 1-6 applied in program order to the period's rows. -/
def kpisFor (rows : List PRow) : List (String × KpiValue) :=
  addNumericStats rows
    (addItemKpis rows
      (addSalesMom rows
        (addSourceCounts rows
          (addSalesKpis rows
            (dictInsert "total_records" (.num rows.length) [])))))

/-- `KPIEngine.compute_kpis_for_client`: the `client_id` argument is used
only in log messages; the query filters by `created_at` alone. -/
def computeKpisForClient (client_id : ℕ) (table : List PRow) (ps pe : PDate) :
    List (String × KpiValue) :=
  if (queryRows table ps pe).isEmpty then []
  else kpisFor (queryRows table ps pe)

end KpiEngine

end Syntegra

namespace Syntegra

namespace KpiEngine

/-- A `kpi_summary` row. -/
structure KpiRow where
  id : ℕ
  client_id : ℕ
  source_id : Option ℕ
  kpi_name : String
  kpi_value : ℚ
  period_start : PDate
  period_end : PDate
  calculated_at : ℤ
deriving DecidableEq, Repr

/-- The database session: the committed table, the session's working view,
and the insert-id sequence. -/
structure DbState where
  committed : List KpiRow
  working : List KpiRow
  nextId : ℕ
deriving DecidableEq, Repr

/-- Which repository operations inside `persist_kpi` fail, if reached. -/
structure FailSpec where
  selectFails : Bool
  updateFails : Bool
  insertFails : Bool
  commitFails : Bool
deriving DecidableEq, Repr

/-- No operation fails. -/
def allOk : FailSpec := ⟨false, false, false, false⟩

/-- The upsert identity key `(client_id, kpi_name, period_start,
period_end)`. -/
def keyMatch (c : ℕ) (n : String) (ps pe : PDate) (r : KpiRow) : Bool :=
  decide (r.client_id = c) && decide (r.kpi_name = n) &&
    decide (r.period_start = ps) && decide (r.period_end = pe)

/-- `session.rollback()`: drop the working changes. -/
def rollback (st : DbState) : DbState := ⟨st.committed, st.committed, st.nextId⟩

/-- `session.commit()`: publish the working view. -/
def commitDb (st : DbState) : DbState := ⟨st.working, st.working, st.nextId⟩

/-- The `UPDATE ... WHERE id = :id` row transform. -/
def updateRow (rid : ℕ) (v : ℚ) (now : ℤ) (x : KpiRow) : KpiRow :=
  if x.id = rid then ⟨x.id, x.client_id, x.source_id, x.kpi_name, v,
    x.period_start, x.period_end, now⟩
  else x

/-- `KPIEngine.persist_kpi`: select by identity key, update or insert, then
commit; any failing operation triggers a rollback and a `False` result. -/
def persistKpi (fs : FailSpec) (st : DbState) (c : ℕ) (n : String) (v : ℚ)
    (ps pe : PDate) (now : ℤ) : Bool × DbState :=
  if fs.selectFails then (false, rollback st)
  else
    match st.working.find? (keyMatch c n ps pe) with
    | some r =>
        if fs.updateFails then (false, rollback st)
        else if fs.commitFails then (false, rollback st)
        else (true, commitDb ⟨st.committed, st.working.map (updateRow r.id v now), st.nextId⟩)
    | none =>
        if fs.insertFails then (false, rollback st)
        else if fs.commitFails then (false, rollback ⟨st.committed, st.working, st.nextId + 1⟩)
        else (true, commitDb ⟨st.committed,
          st.working ++ [⟨st.nextId, c, none, n, v, ps, pe, now⟩], st.nextId + 1⟩)

/-- Whether some operation that `persist_kpi` actually executes fails. -/
def executedOpFails (fs : FailSpec) (st : DbState) (c : ℕ) (n : String)
    (ps pe : PDate) : Bool :=
  fs.selectFails ||
    (match st.working.find? (keyMatch c n ps pe) with
     | some _ => fs.updateFails || fs.commitFails
     | none => fs.insertFails || fs.commitFails)

/-- Two identical persists in sequence, no failures. -/
def persistTwice (st : DbState) (c : ℕ) (n : String) (v : ℚ) (ps pe : PDate)
    (t1 t2 : ℤ) : DbState :=
  (persistKpi allOk (persistKpi allOk st c n v ps pe t1).2 c n v ps pe t2).2

/-- Rows for the identity key. -/
def countKey (c : ℕ) (n : String) (ps pe : PDate) (rows : List KpiRow) : ℕ :=
  rows.countP (keyMatch c n ps pe)

end KpiEngine

end Syntegra

namespace Syntegra

open KpiEngine

/-- C10: the KPI mapping is independent of the client argument — the
`processed_data` query filters only by `created_at`; `client_id` appears in
log statements alone. -/
theorem computeKpis_client_independent (c1 c2 : ℕ) (table : List PRow) (ps pe : PDate) :
    computeKpisForClient c1 table ps pe = computeKpisForClient c2 table ps pe := rfl

/-- C9: `persist_kpi` returns `False` exactly when an executed repository
operation fails, in which case the working view is rolled back to the
original committed table; on success the transaction is committed (no
dangling open transaction either way). -/
theorem persistKpi_error_boundary (fs : FailSpec) (st : DbState) (c : ℕ) (n : String)
    (v : ℚ) (ps pe : PDate) (now : ℤ) :
    (persistKpi fs st c n v ps pe now).1 = !(executedOpFails fs st c n ps pe) ∧
    ((persistKpi fs st c n v ps pe now).1 = false →
      (persistKpi fs st c n v ps pe now).2.working = st.committed ∧
      (persistKpi fs st c n v ps pe now).2.committed = st.committed) ∧
    ((persistKpi fs st c n v ps pe now).1 = true →
      (persistKpi fs st c n v ps pe now).2.committed =
        (persistKpi fs st c n v ps pe now).2.working) := by
  unfold persistKpi executedOpFails
  cases hsel : fs.selectFails
  · cases hf : st.working.find? (keyMatch c n ps pe) <;>
      cases hupd : fs.updateFails <;> cases hins : fs.insertFails <;>
        cases hcom : fs.commitFails <;> simp [rollback, commitDb]
  · simp [rollback]

/-- Updating a row by id never changes its identity key. -/
theorem keyMatch_updateRow (c : ℕ) (n : String) (ps pe : PDate) (rid : ℕ) (v : ℚ)
    (now : ℤ) (x : KpiRow) :
    keyMatch c n ps pe (updateRow rid v now x) = keyMatch c n ps pe x := by
  unfold updateRow keyMatch
  split_ifs <;> rfl

/-- An `UPDATE`-mapped table has the same key count. -/
theorem countKey_map_update (c : ℕ) (n : String) (ps pe : PDate) (rid : ℕ) (v : ℚ)
    (now : ℤ) (rows : List KpiRow) :
    countKey c n ps pe (rows.map (updateRow rid v now)) = countKey c n ps pe rows := by
  unfold countKey
  rw [List.countP_map]
  apply List.countP_congr
  intro x _
  simp [Function.comp, keyMatch_updateRow]

end Syntegra

namespace Syntegra

open KpiEngine

/-- C4 (amended): from any session state holding at most one row for the
identity key, two identical `persist_kpi` calls leave exactly one row for
that key, carrying the value and the second call's timestamp. -/
theorem persistKpi_idempotent (st : DbState) (c : ℕ) (n : String) (v : ℚ)
    (ps pe : PDate) (t1 t2 : ℤ)
    (hkey : countKey c n ps pe st.working ≤ 1) :
    countKey c n ps pe (persistTwice st c n v ps pe t1 t2).committed = 1 ∧
    ∀ r ∈ (persistTwice st c n v ps pe t1 t2).committed,
      keyMatch c n ps pe r = true → r.kpi_value = v ∧ r.calculated_at = t2 := by
  unfold persistTwice
  cases hf1 : st.working.find? (keyMatch c n ps pe) with
  | some r =>
      have h1 : persistKpi allOk st c n v ps pe t1 =
          (true, commitDb ⟨st.committed, st.working.map (updateRow r.id v t1), st.nextId⟩) := by
        simp [persistKpi, allOk, hf1]
      rw [h1]
      have hcnt1 : countKey c n ps pe (st.working.map (updateRow r.id v t1)) = 1 := by
        rw [countKey_map_update]
        have hmem := List.mem_of_find?_eq_some hf1
        have hp := List.find?_some hf1
        have hpos : 0 < countKey c n ps pe st.working :=
          List.countP_pos_iff.mpr ⟨r, hmem, hp⟩
        omega
      have hsome : ((st.working.map (updateRow r.id v t1)).find?
          (keyMatch c n ps pe)).isSome = true := by
        rw [List.find?_isSome]
        have : 0 < countKey c n ps pe (st.working.map (updateRow r.id v t1)) := by omega
        exact List.countP_pos_iff.mp this
      obtain ⟨r2, hf2⟩ := Option.isSome_iff_exists.mp hsome
      have h2 : persistKpi allOk (commitDb ⟨st.committed,
          st.working.map (updateRow r.id v t1), st.nextId⟩) c n v ps pe t2 =
          (true, commitDb ⟨st.working.map (updateRow r.id v t1),
            (st.working.map (updateRow r.id v t1)).map (updateRow r2.id v t2), st.nextId⟩) := by
        simp [persistKpi, allOk, commitDb, hf2]
      rw [h2]
      constructor
      · show countKey c n ps pe ((st.working.map (updateRow r.id v t1)).map
          (updateRow r2.id v t2)) = 1
        rw [countKey_map_update]
        exact hcnt1
      · intro x hx hkx
        obtain ⟨y, hy, rfl⟩ := List.mem_map.mp hx
        have hky : keyMatch c n ps pe y = true := by
          rwa [keyMatch_updateRow] at hkx
        have hr2mem := List.mem_of_find?_eq_some hf2
        have hr2p := List.find?_some hf2
        have hyr2 : y = r2 := by
          have hlen : ((st.working.map (updateRow r.id v t1)).filter
              (keyMatch c n ps pe)).length = 1 := by
            rw [← List.countP_eq_length_filter]
            exact hcnt1
          have hyf : y ∈ (st.working.map (updateRow r.id v t1)).filter
              (keyMatch c n ps pe) := List.mem_filter.mpr ⟨hy, hky⟩
          have hr2f : r2 ∈ (st.working.map (updateRow r.id v t1)).filter
              (keyMatch c n ps pe) := List.mem_filter.mpr ⟨hr2mem, hr2p⟩
          cases hfl : (st.working.map (updateRow r.id v t1)).filter
              (keyMatch c n ps pe) with
          | nil => rw [hfl] at hyf; simp at hyf
          | cons z zs =>
              rw [hfl] at hyf hr2f hlen
              simp at hlen
              subst hlen
              simp at hyf hr2f
              rw [hyf, hr2f]
        subst hyr2
        unfold updateRow
        simp
  | none =>
      have hcnt0 : countKey c n ps pe st.working = 0 :=
        List.countP_eq_zero.mpr (List.find?_eq_none.mp hf1)
      have h1 : persistKpi allOk st c n v ps pe t1 =
          (true, commitDb ⟨st.committed,
            st.working ++ [(⟨st.nextId, c, none, n, v, ps, pe, t1⟩ : KpiRow)], st.nextId + 1⟩) := by
        simp [persistKpi, allOk, hf1]
      rw [h1]
      have hmatchnew : keyMatch c n ps pe (⟨st.nextId, c, none, n, v, ps, pe, t1⟩ : KpiRow) = true := by
        simp [keyMatch]
      have hf2 : (st.working ++ [(⟨st.nextId, c, none, n, v, ps, pe, t1⟩ : KpiRow)]).find?
          (keyMatch c n ps pe) = some (⟨st.nextId, c, none, n, v, ps, pe, t1⟩ : KpiRow) := by
        rw [List.find?_append, hf1]
        simp [List.find?_cons, hmatchnew]
      have h2 : persistKpi allOk (commitDb ⟨st.committed,
          st.working ++ [(⟨st.nextId, c, none, n, v, ps, pe, t1⟩ : KpiRow)], st.nextId + 1⟩)
          c n v ps pe t2 =
          (true, commitDb ⟨st.working ++ [(⟨st.nextId, c, none, n, v, ps, pe, t1⟩ : KpiRow)],
            (st.working ++ [(⟨st.nextId, c, none, n, v, ps, pe, t1⟩ : KpiRow)]).map
              (updateRow st.nextId v t2), st.nextId + 1⟩) := by
        simp [persistKpi, allOk, commitDb, hf2]
      rw [h2]
      constructor
      · show countKey c n ps pe ((st.working ++ [(⟨st.nextId, c, none, n, v, ps, pe, t1⟩ : KpiRow)]).map
          (updateRow st.nextId v t2)) = 1
        rw [countKey_map_update]
        unfold countKey
        rw [List.countP_append]
        unfold countKey at hcnt0
        rw [hcnt0]
        simp [hmatchnew]
      · intro x hx hkx
        obtain ⟨y, hy, rfl⟩ := List.mem_map.mp hx
        have hky : keyMatch c n ps pe y = true := by
          rwa [keyMatch_updateRow] at hkx
        rcases List.mem_append.mp hy with hyw | hynew
        · exact absurd hky (by
            have := List.countP_eq_zero.mp hcnt0 y hyw
            simpa using this)
        · have hynew' : y = (⟨st.nextId, c, none, n, v, ps, pe, t1⟩ : KpiRow) := by
            simpa using hynew
          subst hynew'
          unfold updateRow
          simp

end Syntegra

namespace Syntegra

open KpiEngine

/-- A fixed period bound for the concrete persistence examples. -/
def d0 : PDate := ⟨0, 0⟩

/-- C4 witness: from the empty repository, two identical persists leave
exactly one `kpi_summary` row for the key, via `persistKpi_idempotent`. -/
theorem persistKpi_idempotent_witness :
    countKey 7 "total_records" d0 d0
      (persistTwice ⟨[], [], 1⟩ 7 "total_records" 5 d0 d0 10 20).committed = 1 :=
  (persistKpi_idempotent ⟨[], [], 1⟩ 7 "total_records" 5 d0 d0 10 20
    (by decide)).1

/-- A session state already holding two rows with the same identity key. -/
def dupState : DbState :=
  ⟨[⟨1, 7, none, "kpi", 0, d0, d0, 0⟩, ⟨2, 7, none, "kpi", 0, d0, d0, 0⟩],
   [⟨1, 7, none, "kpi", 0, d0, d0, 0⟩, ⟨2, 7, none, "kpi", 0, d0, d0, 0⟩], 3⟩

/-- C4 counterexample: started from a state with two rows for the key, two
identical persists still leave two rows — `persist_kpi` updates only the
first `SELECT` match — so "exactly one row for every repository state" is
false. -/
theorem persistKpi_idempotent_counterexample :
    countKey 7 "kpi" d0 d0 (persistTwice dupState 7 "kpi" 5 d0 d0 10 20).committed = 2 := by
  decide

end Syntegra

namespace Syntegra

open KpiEngine

/-- Looking up the key just inserted. -/
theorem dictGet_insert_eq (k : String) (v : KpiValue) (d : List (String × KpiValue)) :
    dictGet k (dictInsert k v d) = some v := by
  induction d with
  | nil => simp [dictInsert, dictGet]
  | cons p rest ih =>
      obtain ⟨k2, v2⟩ := p
      unfold dictInsert
      by_cases h2 : k2 = k
      · rw [if_pos h2]
        simp [dictGet]
      · rw [if_neg h2]
        unfold dictGet
        rw [if_neg h2]
        exact ih

/-- Inserting a different key does not change a lookup. -/
theorem dictGet_insert_ne (k k' : String) (v : KpiValue) (d : List (String × KpiValue))
    (h : k' ≠ k) : dictGet k (dictInsert k' v d) = dictGet k d := by
  induction d with
  | nil => simp [dictInsert, dictGet, h]
  | cons p rest ih =>
      obtain ⟨k2, v2⟩ := p
      unfold dictInsert
      by_cases h2 : k2 = k'
      · rw [if_pos h2]
        unfold dictGet
        rw [if_neg h, if_neg (h2 ▸ h)]
      · rw [if_neg h2]
        unfold dictGet
        by_cases h3 : k2 = k
        · rw [if_pos h3, if_pos h3]
        · rw [if_neg h3, if_neg h3]
          exact ih

/-- `{c}_mean` never collides with `sales_mom`. -/
theorem mean_key_ne (c : String) : c ++ "_mean" ≠ "sales_mom" := by
  intro h
  have hd : ("_mean".data).reverse ++ c.data.reverse = "sales_mom".data.reverse := by
    rw [← List.reverse_append, ← String.data_append, h]
  simp at hd

/-- `{c}_median` never collides with `sales_mom`. -/
theorem median_key_ne (c : String) : c ++ "_median" ≠ "sales_mom" := by
  intro h
  have hd : ("_median".data).reverse ++ c.data.reverse = "sales_mom".data.reverse := by
    rw [← List.reverse_append, ← String.data_append, h]
  simp at hd

/-- `{c}_std` never collides with `sales_mom`. -/
theorem std_key_ne (c : String) : c ++ "_std" ≠ "sales_mom" := by
  intro h
  have hd : ("_std".data).reverse ++ c.data.reverse = "sales_mom".data.reverse := by
    rw [← List.reverse_append, ← String.data_append, h]
  simp at hd

/-- `top{i}_item` never collides with `sales_mom`. -/
theorem item_key_ne (c : String) : c ++ "_item" ≠ "sales_mom" := by
  intro h
  have hd : ("_item".data).reverse ++ c.data.reverse = "sales_mom".data.reverse := by
    rw [← List.reverse_append, ← String.data_append, h]
  simp at hd

/-- `top{i}_count` never collides with `sales_mom`. -/
theorem cnt_key_ne (c : String) : c ++ "_count" ≠ "sales_mom" := by
  intro h
  have hd : ("_count".data).reverse ++ c.data.reverse = "sales_mom".data.reverse := by
    rw [← List.reverse_append, ← String.data_append, h]
  simp at hd

/-- `count_{source}` never collides with `sales_mom`. -/
theorem src_key_ne (s : String) : "count_" ++ s ≠ "sales_mom" := by
  intro h
  have hd : "count_".data ++ s.data = "sales_mom".data := by
    rw [← String.data_append, h]
  simp at hd

/-- KPI 6 never writes `sales_mom`. -/
theorem dictGet_salesMom_addNumericStats (rows : List PRow) (d : List (String × KpiValue)) :
    dictGet "sales_mom" (addNumericStats rows d) = dictGet "sales_mom" d := by
  unfold addNumericStats
  generalize numericCols rows = cs
  induction cs generalizing d with
  | nil => rfl
  | cons c cs ih =>
      rw [List.foldl_cons, ih, dictGet_insert_ne _ _ _ _ (std_key_ne c),
        dictGet_insert_ne _ _ _ _ (median_key_ne c),
        dictGet_insert_ne _ _ _ _ (mean_key_ne c)]

/-- The `top{i}` entries never write `sales_mom`. -/
theorem dictGet_salesMom_addItemEntries (i : ℕ) (tops : List (JVal × ℕ))
    (d : List (String × KpiValue)) :
    dictGet "sales_mom" (addItemEntries i tops d) = dictGet "sales_mom" d := by
  induction tops generalizing i d with
  | nil => rfl
  | cons p rest ih =>
      obtain ⟨v, cnt⟩ := p
      unfold addItemEntries
      rw [ih, dictGet_insert_ne _ _ _ _ (cnt_key_ne ("top" ++ toString i)),
        dictGet_insert_ne _ _ _ _ (item_key_ne ("top" ++ toString i))]

/-- KPI 5 never writes `sales_mom`. -/
theorem dictGet_salesMom_addItemKpis (rows : List PRow) (d : List (String × KpiValue)) :
    dictGet "sales_mom" (addItemKpis rows d) = dictGet "sales_mom" d := by
  unfold addItemKpis
  cases itemCol rows with
  | none => rfl
  | some c =>
      rw [dictGet_salesMom_addItemEntries, dictGet_insert_ne _ _ _ _ (by decide)]

/-- KPI 3 never writes `sales_mom`. -/
theorem dictGet_salesMom_addSourceCounts (rows : List PRow) (d : List (String × KpiValue)) :
    dictGet "sales_mom" (addSourceCounts rows d) = dictGet "sales_mom" d := by
  unfold addSourceCounts
  generalize firstDedup (rows.map fun r => r.source_type) = srcs
  induction srcs generalizing d with
  | nil => rfl
  | cons sc rest ih =>
      rw [List.foldl_cons, ih, dictGet_insert_ne _ _ _ _ (src_key_ne sc)]

/-- KPI 2 never writes `sales_mom`. -/
theorem dictGet_salesMom_addSalesKpis (rows : List PRow) (d : List (String × KpiValue)) :
    dictGet "sales_mom" (addSalesKpis rows d) = dictGet "sales_mom" d := by
  unfold addSalesKpis
  cases salesCol rows with
  | none => rfl
  | some c =>
      rw [dictGet_insert_ne _ _ _ _ (by decide), dictGet_insert_ne _ _ _ _ (by decide),
        dictGet_insert_ne _ _ _ _ (by decide), dictGet_insert_ne _ _ _ _ (by decide)]

/-- KPIs 1-3 never write `sales_mom`. -/
theorem dictGet_salesMom_base (rows : List PRow) :
    dictGet "sales_mom" (addSourceCounts rows (addSalesKpis rows
      (dictInsert "total_records" (.num rows.length) []))) = none := by
  rw [dictGet_salesMom_addSourceCounts, dictGet_salesMom_addSalesKpis,
    dictGet_insert_ne _ _ _ _ (by decide)]
  rfl

end Syntegra

namespace Syntegra

open KpiEngine

/-- C7 (amended): the month-over-month KPI `sales_mom` is present exactly
when an amount-like column exists, the period spans at least two distinct
months, and the previous month's sum is strictly *positive* (the code guards
`previous_month > 0`, not merely nonzero); when present its value is
`(latest − previous) / previous × 100`. -/
theorem sales_mom_spec (client : ℕ) (table : List PRow) (ps pe : PDate) :
    dictGet "sales_mom" (computeKpisForClient client table ps pe) =
      (match salesCol (queryRows table ps pe), latestMonth (queryRows table ps pe),
          prevMonth (queryRows table ps pe) with
       | some c, some mL, some mP =>
          if 0 < monthSum (queryRows table ps pe) c mP then
            some (KpiValue.num (((monthSum (queryRows table ps pe) c mL -
              monthSum (queryRows table ps pe) c mP) /
                monthSum (queryRows table ps pe) c mP) * 100))
          else none
       | _, _, _ => none) := by
  unfold computeKpisForClient
  by_cases hempty : (queryRows table ps pe).isEmpty
  · rw [if_pos hempty]
    have hrows : queryRows table ps pe = [] := List.isEmpty_iff.mp hempty
    rw [hrows]
    rfl
  · rw [if_neg hempty]
    unfold kpisFor
    rw [dictGet_salesMom_addNumericStats, dictGet_salesMom_addItemKpis]
    unfold addSalesMom
    cases hsc : salesCol (queryRows table ps pe) with
    | none => exact dictGet_salesMom_base _
    | some c =>
        cases hlm : latestMonth (queryRows table ps pe) with
        | none => exact dictGet_salesMom_base _
        | some mL =>
            cases hpm : prevMonth (queryRows table ps pe) with
            | none => exact dictGet_salesMom_base _
            | some mP =>
                dsimp only
                by_cases hpos : 0 < monthSum (queryRows table ps pe) c mP
                · rw [if_pos hpos, if_pos hpos, dictGet_insert_eq]
                · rw [if_neg hpos, if_neg hpos]
                  exact dictGet_salesMom_base _

/-- Two records, one per month: the earlier month's amount sums to −10, the
later to 5. -/
def negPrevTable : List PRow :=
  [⟨1, "sales", [("amount", JVal.jnum (-10))], ⟨0, 1⟩⟩,
   ⟨2, "sales", [("amount", JVal.jnum 5)], ⟨1, 1⟩⟩]

/-- C7 counterexample: the amount column exists, two distinct months exist,
and the previous month's sum is −10 — nonzero, so the claim requires the
growth KPI to be emitted — yet the computed mapping has no `sales_mom`
entry, because the code requires a strictly positive previous sum. -/
theorem sales_mom_nonzero_counterexample :
    salesCol (queryRows negPrevTable ⟨0, 0⟩ ⟨2, 0⟩) = some "amount" ∧
    (monthsOf (queryRows negPrevTable ⟨0, 0⟩ ⟨2, 0⟩)).length = 2 ∧
    monthSum (queryRows negPrevTable ⟨0, 0⟩ ⟨2, 0⟩) "amount" 0 = -10 ∧
    prevMonth (queryRows negPrevTable ⟨0, 0⟩ ⟨2, 0⟩) = some 0 ∧
    monthSum (queryRows negPrevTable ⟨0, 0⟩ ⟨2, 0⟩) "amount" 0 ≠ 0 ∧
    dictGet "sales_mom" (computeKpisForClient 1 negPrevTable ⟨0, 0⟩ ⟨2, 0⟩) = none := by
  refine ⟨by decide, by decide, ?_, by decide, ?_, ?_⟩
  · norm_num +decide [negPrevTable, queryRows, monthSum, numsOf, lookupJ, toNumeric,
      pdLE, rowLE, List.insertionSort, List.orderedInsert, List.filter_cons,
      List.filterMap_cons, List.sum_cons, List.lookup, Option.bind]
  · norm_num +decide [negPrevTable, queryRows, monthSum, numsOf, lookupJ, toNumeric,
      pdLE, rowLE, List.insertionSort, List.orderedInsert, List.filter_cons,
      List.filterMap_cons, List.sum_cons, List.lookup, Option.bind]
  · norm_num +decide [negPrevTable, computeKpisForClient, queryRows, kpisFor,
      addNumericStats, addItemKpis, addSalesMom, addSourceCounts, addSalesKpis,
      numericCols, jsonCols, numericDtype, salesCol, itemCol, firstPresent,
      colPresent, SALES_COLUMNS, ITEM_COLUMNS, monthsOf, monthSum, latestMonth,
      prevMonth, numsOf, lookupJ, toNumeric, pdLE, rowLE, firstDedup, firstDedup.go,
      dictInsert, dictGet, meanVal, medianVal, stdVal, maxVal, minVal,
      List.insertionSort, List.orderedInsert, List.filter_cons, List.lookup,
      List.filterMap_cons, List.sum_cons, Option.bind]

end Syntegra
